import Mathlib

/-!
# jpeg2png: the command-line driver `main` (src/jpeg2png.c)

A shallow embedding of `main` and `usage` from `src/jpeg2png.c`, and the
properties of the driver: how the options become the solver configuration,
which runs end in a fatal error and what they leave behind, and which calls
a returning run makes, on which data.

* `float` values are rationals (`ℚ`). Parsing, storing and passing on keep the
  value as it is written (the rounding of a decimal text or constant to
  binary32 is not modelled); the one arithmetic step of `main`, the addition
  of line 193, rounds to binary32 as the C code does. Infinities and NaNs are
  outside the model.
* `unsigned` values are naturals, reduced modulo `2 ^ 32` wherever the C code
  can wrap.
* The process is modelled by explicit state passing: a chronological trace of
  the calls `main` makes, and the file system.
* `gopt_sort` has already run: `main` receives the recognised options in
  command-line order and the remaining `argv` (program name and positionals).
  Runs in which `gopt_sort` itself stops the process are outside the model.
* The `sscanf` calls are modelled on decimal input, see `scan_f` and `scan_u`;
  `%u` follows glibc with a 64-bit `unsigned long`.
* Collaborators whose code is outside `src/jpeg2png.c` (`read_jpeg`,
  `decode_coefficients`, `alloc_real`, `unbox`, `compute`, `upsample`,
  `write_png`) are parameters, collected in `Env`; of these only `read_jpeg`
  and `alloc_real` can fail in the model.
* Without OpenMP the channel loop is sequential; with `USE_OPENMP` the model
  keeps the sequential order of the loop (the schedule is not modelled).
-/

namespace Jpeg2png

/-! ## C library: the `sscanf` calls of `main` -/

/-- The white-space characters of the C locale (`isspace`). -/
def isspace (c : Char) : Bool :=
  c = ' ' || c = '\t' || c = '\n' || c = '\r' || c.toNat = 11 || c.toNat = 12

/-- Decimal digit test (`isdigit`). -/
def isdigit (c : Char) : Bool := 48 ≤ c.toNat && c.toNat ≤ 57

/-- Drop leading white space, as every `%f` and `%u` directive does. -/
def skip_space : List Char → List Char
  | [] => []
  | c :: s => if isspace c then skip_space s else c :: s

/-- The values of the leading decimal digits of the input. -/
def take_digits : List Char → List Nat
  | [] => []
  | c :: s => if isdigit c then (c.toNat - 48) :: take_digits s else []

/-- The input after its leading decimal digits. -/
def drop_digits : List Char → List Char
  | [] => []
  | c :: s => if isdigit c then drop_digits s else c :: s

/-- Value of a digit string, most significant digit first. -/
def decimal (ds : List Nat) : Nat := ds.foldl (fun n d => 10 * n + d) 0

/-- An optional sign: `true` for `-`. -/
def scan_sign : List Char → Bool × List Char
  | '-' :: s => (true, s)
  | '+' :: s => (false, s)
  | s => (false, s)

/-- The `%u` conversion: white space, an optional sign, at least one decimal
digit. The subject sequence is converted as by `strtoul` with a 64-bit
`unsigned long` (glibc on LP64): a value of `2 ^ 64` or more saturates to
`ULONG_MAX`, otherwise a leading `-` negates in `unsigned long`; the result is
then stored in an `unsigned`, which keeps its low 32 bits. `none` is a matching
failure. -/
def scan_u (s : List Char) : Option (Nat × List Char) :=
  let r := scan_sign (skip_space s)
  match take_digits r.2 with
  | [] => none
  | d :: ds =>
    let m := decimal (d :: ds)
    let ul := if 2 ^ 64 ≤ m then 2 ^ 64 - 1 else if r.1 then (2 ^ 64 - m) % 2 ^ 64 else m
    some (ul % 2 ^ 32, drop_digits r.2)

/-- An optional decimal exponent `e[+-]digits`; an `e` that is not followed
by digits is left in the input. -/
def scan_exp (s : List Char) : Int × List Char :=
  match s with
  | [] => (0, [])
  | c :: s1 =>
    if c = 'e' || c = 'E' then
      let r := scan_sign s1
      match take_digits r.2 with
      | [] => (0, s)
      | d :: ds =>
        (if r.1 then - (decimal (d :: ds) : Int) else (decimal (d :: ds) : Int), drop_digits r.2)
    else (0, s)

/-- The `%f` conversion on decimal input: white space, an optional sign,
digits with an optional `.` (at least one digit in all), an optional exponent.
The result is the exact value of the decimal text. Hexadecimal floats,
infinities and NaNs are outside the model. `none` is a matching failure. -/
def scan_f (s : List Char) : Option (ℚ × List Char) :=
  let r := scan_sign (skip_space s)
  let ip := take_digits r.2
  let s2 := drop_digits r.2
  let fp := match s2 with
    | '.' :: t => take_digits t
    | _ => []
  let s3 := match s2 with
    | '.' :: t => drop_digits t
    | _ => s2
  match ip ++ fp with
  | [] => none
  | d :: ds =>
    let e := scan_exp s3
    let m : ℚ := (decimal (d :: ds) : ℚ) * (10 : ℚ) ^ (e.1 - (fp.length : Int))
    some (if r.1 then -m else m, e.2)

/-- A directive of a `scanf` format: a conversion, or an ordinary character
that must match the next input character. -/
inductive Directive where
  | conv
  | lit (c : Char)
deriving DecidableEq

/-- Result of a `sscanf` call: the return value `n` (`-1` is `EOF`) and the
converted values, in order; `vals` has `n` entries when `0 ≤ n`. -/
structure Scanned (α : Type) where
  n : Int
  vals : List α
deriving DecidableEq

/-- The value `EOF` of `<stdio.h>`. -/
def EOF : Int := -1

/-- Return value of `sscanf` when it stops on an input failure: `EOF` if no
conversion has completed, the number of assigned items otherwise. -/
def input_failure {α : Type} (acc : List α) : Scanned α :=
  ⟨if acc.length = 0 then EOF else (acc.length : Int), acc⟩

/-- The directive loop of `sscanf` for a format all of whose conversions are
of one kind (`conv`). End of input at a directive is an input failure; an
unconvertible or unmatched character is a matching failure and returns the
number of items assigned so far. -/
def sscanf_loop {α : Type} (conv : List Char → Option (α × List Char)) :
    List Directive → List Char → List α → Scanned α
  | [], _, acc => ⟨(acc.length : Int), acc⟩
  | Directive.conv :: ds, s, acc =>
    match skip_space s with
    | [] => input_failure acc
    | c :: s1 =>
      match conv (c :: s1) with
      | none => ⟨(acc.length : Int), acc⟩
      | some (v, rest) => sscanf_loop conv ds rest (acc ++ [v])
  | Directive.lit c :: ds, s, acc =>
    match s with
    | [] => input_failure acc
    | c1 :: rest => if c1 = c then sscanf_loop conv ds rest acc else ⟨(acc.length : Int), acc⟩

/-- The three-conversion format `X,X,X`. -/
def format3 : List Directive :=
  [Directive.conv, Directive.lit ',', Directive.conv, Directive.lit ',', Directive.conv]

/-- The call `sscanf(arg_string, "%f,%f,%f", ...)`. -/
def sscanf_fff (arg_string : String) : Scanned ℚ :=
  sscanf_loop scan_f format3 arg_string.toList []

/-- The call `sscanf(arg_string, "%u,%u,%u", ...)`. -/
def sscanf_uuu (arg_string : String) : Scanned Nat :=
  sscanf_loop scan_u format3 arg_string.toList []

/-- The call `sscanf(arg_string, "%u", ...)`. -/
def sscanf_u (arg_string : String) : Scanned Nat :=
  sscanf_loop scan_u [Directive.conv] arg_string.toList []

/-- A C array of three elements. -/
structure Arr3 (α : Type) where
  a0 : α
  a1 : α
  a2 : α
deriving DecidableEq

/-- Element `a[i]`. -/
def Arr3.get {α : Type} (a : Arr3 α) (i : Fin 3) : α :=
  match i with
  | 0 => a.a0
  | 1 => a.a1
  | 2 => a.a2

/-- The array after `a[i] = v`. -/
def Arr3.set {α : Type} (a : Arr3 α) (i : Fin 3) (v : α) : Arr3 α :=
  match i with
  | 0 => { a with a0 := v }
  | 1 => { a with a1 := v }
  | 2 => { a with a2 := v }

/-- What `sscanf` leaves in its three destinations `&a[0], &a[1], &a[2]`:
the converted values are assigned in order, the other elements keep their
previous contents. -/
def store {α : Type} (a : Arr3 α) : List α → Arr3 α
  | [] => a
  | [x] => { a with a0 := x }
  | [x, y] => { a with a0 := x, a1 := y }
  | x :: y :: z :: _ => ⟨x, y, z⟩

/-! ## Float arithmetic: the addition of line 193 -/

/-- Position of the leading bit of a positive natural, `fuel` bounding the
number of halvings. -/
def log2_fuel : Nat → Nat → Nat
  | 0, _ => 0
  | fuel + 1, n => if n < 2 then 0 else log2_fuel fuel (n / 2) + 1

/-- Exponent of the leading bit of a non-zero rational: the `e` with
`2 ^ e ≤ |q| < 2 ^ (e + 1)`. -/
def ilog2 (q : ℚ) : Int :=
  let e0 : Int :=
    (log2_fuel q.num.natAbs q.num.natAbs : Int) - (log2_fuel q.den q.den : Int)
  if (2 : ℚ) ^ e0 ≤ |q| then e0 else e0 - 1

/-- Round to the nearest integer, ties to even. -/
def round_half_even (r : ℚ) : Int :=
  let f := ⌊r⌋
  if r - f < 1 / 2 then f
  else if 1 / 2 < r - f then f + 1
  else if f % 2 = 0 then f else f + 1

/-- Round to the nearest value of a binary floating-point format with `p`
significant bits and least normal exponent `emin`, ties to even. Values
beyond the largest finite number of the format are not treated (they cannot
arise at line 193 from a finite `float`). -/
def round_to (p : Nat) (emin : Int) (q : ℚ) : ℚ :=
  if q = 0 then 0
  else
    let e := max (ilog2 q) emin
    let quantum : ℚ := 2 ^ (e - ((p : Int) - 1))
    (round_half_even (q / quantum) : ℚ) * quantum

/-- Rounding to `double` (binary64). -/
def to_double (q : ℚ) : ℚ := round_to 53 (-1022) q

/-- Rounding to `float` (binary32). -/
def to_float (q : ℚ) : ℚ := round_to 24 (-126) q

/-- The assignment `x += 128.` of line 193 on a `float` object `x`: the
constant is a `double`, so the sum is formed in `double` and the result is
converted back to `float`. -/
def plus_128 (x : ℚ) : ℚ := to_float (to_double (x + 128))

/-! ## Data of the program -/

/-- File contents. -/
abbrev Bytes := List Nat

/-- The positional and option state left by `gopt_sort` for the option table
of `main`: one entry per recognised option occurrence, under the key the
table gives it (`-h`, `-?` and `--help` all have key `h`). Options declared
`GOPT_ARG` carry their argument string. -/
inductive Opt where
  | h
  | c (arg : String)
  | t (arg : String)
  | q
  | i (arg : String)
  | p (arg : String)
  | w (arg : String)
deriving DecidableEq

/-- Key of an option occurrence. -/
def Opt.key : Opt → Char
  | Opt.h => 'h'
  | Opt.c _ => 'c'
  | Opt.t _ => 't'
  | Opt.q => 'q'
  | Opt.i _ => 'i'
  | Opt.p _ => 'p'
  | Opt.w _ => 'w'

/-- Argument string of an option occurrence, if its kind takes one. -/
def Opt.arg? : Opt → Option String
  | Opt.h => none
  | Opt.c a => some a
  | Opt.t a => some a
  | Opt.q => none
  | Opt.i a => some a
  | Opt.p a => some a
  | Opt.w a => some a

/-- The call `gopt(options, key)`: how many times the option was given. -/
def gopt (options : List Opt) (key : Char) : Nat :=
  (options.filter (fun o => o.key = key)).length

/-- The call `gopt_arg(options, key, &arg_string)`: `some s` when the return
value is non-zero, `s` being the argument of the first occurrence. -/
def gopt_arg (options : List Opt) (key : Char) : Option String :=
  (options.find? (fun o => o.key = key)).bind Opt.arg?

/-- The type `struct coef` of jpeg2png.h: plane dimensions, the decoded
integer levels and the float working array. -/
structure coef where
  h : Nat
  w : Nat
  data : List Int
  fdata : List ℚ
deriving DecidableEq

/-- The type `struct jpeg` of jpeg2png.h: declared image size, one quantisation
table and one coefficient plane per channel. -/
structure jpeg where
  h : Nat
  w : Nat
  quant_table : Arr3 (List Nat)
  coefs : Arr3 coef
deriving DecidableEq

/-- The type `struct logger`: the csv stream (`none` is `NULL`, otherwise the
path it was opened on) and the channel field. -/
structure logger where
  csv_log : Option String
  channel : Nat
deriving DecidableEq

/-- The type `struct progressbar`, as far as `main` sets it up. -/
structure progressbar where
  total : Nat
deriving DecidableEq

/-- The variadic argument of `die_perror`: a string, or a `FILE *` value
(`none` is the null pointer). -/
inductive PrintfArg where
  | str (s : String)
  | file (f : Option String)
deriving DecidableEq

/-- The calls `main` makes, in the order of the trace. Calls whose result
decides how `main` goes on record it: `fopen` whether it succeeded,
`read_jpeg` the image it returned (`none` when it terminated the process). -/
inductive Event where
  | printf_usage (text : String)
  | exit (status : Nat)
  | die (msg : String)
  | die_perror (fmt : String) (arg : PrintfArg)
  | sscanf (arg_string : String) (fmt : String)
  | omp_set_num_threads (threads : Nat)
  | fopen (path : String) (mode : String) (ok : Bool)
  | gopt_free
  | read_jpeg (path : String) (result : Option jpeg)
  | fclose (path : String)
  | decode_coefficients (c : Nat)
  | alloc_real (n : Nat) (ok : Bool)
  | unbox (i : Nat) (w : Nat) (h : Nat)
  | free_real (i : Nat)
  | logger_start (csv_log : Option String)
  | progressbar_start (total : Nat)
  | compute (i : Nat) (coef : coef) (log : logger) (pb : Option progressbar)
      (quant_table : List Nat) (weight : ℚ) (pweight : ℚ) (iterations : Nat)
  | progressbar_done
  | upsample (i : Nat) (coef : coef) (w : Nat) (h : Nat)
  | write_png (path : String) (w : Nat) (h : Nat) (y : coef) (cb : coef) (cr : coef)
  | free (i : Nat)
deriving DecidableEq

/-- The kinds of call the start-up part of `main` makes (lines 75-167):
option parsing, opening the streams, reading and unboxing the image, and the
diagnostics. None of them is `compute`, `upsample` or `write_png`. -/
def Event.setup : Event → Bool
  | Event.printf_usage _ => true
  | Event.exit _ => true
  | Event.die _ => true
  | Event.die_perror _ _ => true
  | Event.sscanf _ _ => true
  | Event.omp_set_num_threads _ => true
  | Event.fopen _ _ _ => true
  | Event.gopt_free => true
  | Event.read_jpeg _ _ => true
  | Event.fclose _ => true
  | Event.decode_coefficients _ => true
  | Event.alloc_real _ _ => true
  | Event.unbox _ _ _ => true
  | Event.free_real _ => true
  | _ => false

/-- Is the call an `fopen`? -/
def Event.is_fopen : Event → Bool
  | Event.fopen _ _ _ => true
  | _ => false

/-- Is the call a `sscanf`? -/
def Event.is_sscanf : Event → Bool
  | Event.sscanf _ _ => true
  | _ => false

/-- Is the call a fatal diagnostic (`die` or `die_perror`)? -/
def Event.is_die : Event → Bool
  | Event.die _ => true
  | Event.die_perror _ _ => true
  | _ => false

/-- Is the call one of the three fatal diagnostics of the option blocks
(lines 93, 105 and 117)? -/
def Event.is_config_error : Event → Bool
  | Event.die msg =>
    msg = "invalid weight" || msg = "invalid probability weight" ||
      msg = "invalid number of iterations"
  | _ => false

/-- Is the call a `read_jpeg`? -/
def Event.is_read_jpeg : Event → Bool
  | Event.read_jpeg _ _ => true
  | _ => false

/-- Start-up calls other than `read_jpeg` and the three option diagnostics. -/
def Event.plain (e : Event) : Bool :=
  e.setup && !e.is_read_jpeg && !e.is_config_error

/-- Is the call a `compute`? -/
def Event.is_compute : Event → Bool
  | Event.compute _ _ _ _ _ _ _ _ => true
  | _ => false

/-- Is the call an `upsample`? -/
def Event.is_upsample : Event → Bool
  | Event.upsample _ _ _ _ => true
  | _ => false

/-- Is the call a `write_png`? -/
def Event.is_write_png : Event → Bool
  | Event.write_png _ _ _ _ _ _ => true
  | _ => false

/-- The `compute` calls of a trace, in order. -/
def compute_calls (t : List Event) : List Event := t.filter Event.is_compute

/-- Plane index and target size of each `upsample` call. -/
def upsample_targets (t : List Event) : List (Nat × Nat × Nat) :=
  t.filterMap fun e =>
    match e with
    | Event.upsample i _ w h => some (i, w, h)
    | _ => none

/-- Image size passed to each `write_png` call. -/
def write_png_sizes (t : List Event) : List (Nat × Nat) :=
  t.filterMap fun e =>
    match e with
    | Event.write_png _ w h _ _ _ => some (w, h)
    | _ => none

/-- The `upsample` calls of a trace, in order. -/
def upsample_calls (t : List Event) : List Event := t.filter Event.is_upsample

/-- The `write_png` calls of a trace, in order. -/
def write_png_calls (t : List Event) : List Event := t.filter Event.is_write_png

/-- Channel index and second-order weight of each `compute` call. -/
def solver_weights (t : List Event) : List (Nat × ℚ) :=
  t.filterMap fun e =>
    match e with
    | Event.compute i _ _ _ _ weight _ _ => some (i, weight)
    | _ => none

/-- Channel index and probability weight of each `compute` call. -/
def solver_pweights (t : List Event) : List (Nat × ℚ) :=
  t.filterMap fun e =>
    match e with
    | Event.compute i _ _ _ _ _ pweight _ => some (i, pweight)
    | _ => none

/-- Channel index and iteration count of each `compute` call. -/
def solver_iterations (t : List Event) : List (Nat × Nat) :=
  t.filterMap fun e =>
    match e with
    | Event.compute i _ _ _ _ _ _ iterations => some (i, iterations)
    | _ => none

/-- The file system: the contents of each existing file, and whether an
`fopen` for reading or for writing succeeds on a path. -/
structure FS where
  file : String → Option Bytes
  can_read : String → Bool
  can_write : String → Bool

/-- The call `fopen(path, "rb")` succeeds on a readable existing file. -/
def FS.fopen_rb (fs : FS) (path : String) : Bool :=
  (fs.file path).isSome && fs.can_read path

/-- The file system after a successful `fopen(path, "wb")`: the file exists
and is empty. -/
def FS.truncate (fs : FS) (path : String) : FS :=
  { fs with file := fun q => if q = path then some [] else fs.file q }

/-- The file system after `data` has been written to the stream opened on
`path`. -/
def FS.write (fs : FS) (path : String) (data : Bytes) : FS :=
  { fs with file := fun q => if q = path then some ((fs.file path).getD [] ++ data) else fs.file q }

/-- The collaborators of `main` that live outside src/jpeg2png.c, and the
build flag. `read_jpeg` returns `none` when it terminates the process itself;
`alloc_real i n` tells whether the allocation of `n` floats in round `i` of
the unbox loop succeeds. -/
structure Env where
  USE_OPENMP : Bool
  read_jpeg : Bytes → Option jpeg
  decode_coefficients : coef → List Nat → coef
  alloc_real : Nat → Nat → Bool
  unbox : List ℚ → Nat → Nat → List ℚ
  compute : coef → logger → Option progressbar → List Nat → ℚ → ℚ → Nat → coef
  upsample : coef → Nat → Nat → coef
  write_png : Nat → Nat → coef → coef → coef → Bytes

/-- The plane a `compute` call leaves behind, as the collaborator `compute`
of `env` determines it from the arguments of the call. -/
def compute_result (env : Env) : Event → Option coef
  | Event.compute _ coef log pb quant_table weight pweight iterations =>
    some (env.compute coef log pb quant_table weight pweight iterations)
  | _ => none

/-- State of the running process: the trace so far and the file system. -/
structure Proc where
  trace : List Event
  fs : FS

/-- Append one call to the trace. -/
def Proc.log (p : Proc) (e : Event) : Proc := { p with trace := p.trace ++ [e] }

/-- Result of a block of `main`: the process has exited, or control continues
with a value. -/
inductive Result (α : Type) where
  | exited (p : Proc)
  | cont (a : α) (p : Proc)

/-- Sequencing of blocks: nothing runs after an exit. -/
def Result.bind {α β : Type} (r : Result α) (k : α → Proc → Result β) : Result β :=
  match r with
  | Result.exited p => Result.exited p
  | Result.cont a p => k a p

/-- The value `EXIT_FAILURE` of `<stdlib.h>`. -/
def EXIT_FAILURE : Nat := 1

/-- How a run of `main` ends: the trace, the file system left behind and the
exit status of the process. -/
structure Outcome where
  trace : List Event
  fs : FS
  status : Nat

/-- The process state a block ends in, whether it exited or not. -/
def Result.proc {α : Type} : Result α → Proc
  | Result.exited p => p
  | Result.cont _ p => p

/-- The outcome of a run: a process that exited did so with `EXIT_FAILURE`
(`usage` calls `exit(EXIT_FAILURE)`, and so, in the model, does every fatal
diagnostic); otherwise `main` returned 0. -/
def Result.outcome (r : Result Unit) : Outcome :=
  match r with
  | Result.exited p => ⟨p.trace, p.fs, EXIT_FAILURE⟩
  | Result.cont _ p => ⟨p.trace, p.fs, 0⟩

/-- A loop `for(unsigned i = 0; i < 3; i++)` whose body may exit. -/
def for3 {σ : Type} (body : Fin 3 → σ → Proc → Result σ) (s : σ) (p : Proc) : Result σ :=
  (body 0 s p).bind fun s1 p1 => (body 1 s1 p1).bind fun s2 p2 => body 2 s2 p2

/-! ## The program -/

/-- Line 20. -/
def default_weight : ℚ := 3 / 10

/-- Line 21. -/
def default_pweight : ℚ := 1 / 1000

/-- Line 22. -/
def default_iterations : Nat := 50

/-- The text `usage` prints (lines 25-70), with the three defaults formatted
by `%g`, `%g` and `%d`; the line about threads support is present in builds
without `USE_OPENMP`. -/
def usage_text (openmp : Bool) : String :=
  "usage: jpeg2png in.jpg out.png [-w weight] [-i iterations] [-q] [-c csv_log]\n" ++
  "\n" ++
  "-w weight[,weight_cb,weight_cr]\n" ++
  "--second-order-weight weight[,weight_cb,weight_cr]\n" ++
  "\tweight is a floating point number for TVG weight alpha_1\n" ++
  "\thigher values give smoother transitions with less staircasing\n" ++
  "\ta value of 1.0 means equivalent weight to the first order weight\n" ++
  "\ta value of 0.0 means plain Total Variation, and gives a speed boost\n" ++
  "\tweights for the chroma channels always default to 0.\n" ++
  "\tdefault value: 0.3\n" ++
  "\n" ++
  "-p pweight[,pweight_cb,pweight_cr]\n" ++
  "--probability-weight pweight[,pweight_cb,pweight_cr]\n" ++
  "\tpweight is a floating point number for DCT coefficient distance weight\n" ++
  "\thigher values make the result more similar to the source JPEG\n" ++
  "\ta value of 1.0 means approximately equivalent weight to the first order weight\n" ++
  "\ta value of 0.0 means to ignore this and gives a speed boost\n" ++
  "\tweights for the chroma channels default to the luma weight.\n" ++
  "\tdefault value: 0.001\n" ++
  "-i iterations[,iterations_cb,iterations_cr]\n" ++
  "--iterations iterations[,iterations_cb,iterations_cr]\n" ++
  "\titerations is an integer for the number of optimization steps\n" ++
  "\thigher values give better results but take more time\n" ++
  "\titerations for the chroma channels default to the luma iterations\n" ++
  "\tdefault value: 50\n" ++
  "\n" ++
  "-q\n" ++
  "--quiet\n" ++
  "\tdon't show the progress bar\n" ++
  "\n" ++
  "-t threads\n" ++
  "--threads threads\n" ++
  (if openmp then "" else "\t*this version was compiled without support for threads*\n\n") ++
  "\tthreads is a positive integer for the maximum number of threads used\n" ++
  "\tequivalent to setting the environment variable OMP_NUM_THREADS\n" ++
  "\tdefault: number of CPUs\n" ++
  "\n" ++
  "-c csv_log\n" ++
  "--csv_log csv_log\n" ++
  "\tcsv_log is a file name for the optimization log\n" ++
  "\tdefault: none\n"

/-- Lines 24-72: `usage` prints the text and calls `exit(EXIT_FAILURE)`. -/
def usage {α : Type} (env : Env) (p : Proc) : Result α :=
  Result.exited ((p.log (Event.printf_usage (usage_text env.USE_OPENMP))).log (Event.exit EXIT_FAILURE))

/-- Modelled from the spec: `die` of utils.c, which is not under src/. A fatal
error emits one diagnostic line and terminates the process with a non-zero
status. -/
def die {α : Type} (msg : String) (p : Proc) : Result α :=
  Result.exited (p.log (Event.die msg))

/-- Modelled from the spec: `die_perror` of utils.c, which is not under src/.
As `die`, the diagnostic being formatted from `fmt` and its argument. -/
def die_perror {α : Type} (fmt : String) (arg : PrintfArg) (p : Proc) : Result α :=
  Result.exited (p.log (Event.die_perror fmt arg))

/-- Lines 83-85: the usage check on `argc` and on the help option. -/
def usage_block (env : Env) (options : List Opt) (argv : List String) (p : Proc) :
    Result Unit :=
  if argv.length ≠ 3 ∨ gopt options 'h' ≠ 0 then usage env p else Result.cont () p

/-- Lines 87-95: the array `weights` after the `-w` block. -/
def weights_block (options : List Opt) (p : Proc) : Result (Arr3 ℚ) :=
  let weights : Arr3 ℚ := ⟨default_weight, 0, 0⟩
  match gopt_arg options 'w' with
  | none => Result.cont weights p
  | some arg_string =>
    let r := sscanf_fff arg_string
    let p1 := p.log (Event.sscanf arg_string "%f,%f,%f")
    if r.n = 3 ∨ r.n = 1 then Result.cont (store weights r.vals) p1
    else die "invalid weight" p1

/-- Lines 96-107: the array `pweights` after the `-p` block. -/
def pweights_block (options : List Opt) (p : Proc) : Result (Arr3 ℚ) :=
  let pweights : Arr3 ℚ := ⟨default_pweight, default_pweight, default_pweight⟩
  match gopt_arg options 'p' with
  | none => Result.cont pweights p
  | some arg_string =>
    let r := sscanf_fff arg_string
    let p1 := p.log (Event.sscanf arg_string "%f,%f,%f")
    let pweights := store pweights r.vals
    if r.n = 3 then Result.cont pweights p1
    else if r.n = 1 then Result.cont { pweights with a1 := pweights.a0, a2 := pweights.a0 } p1
    else die "invalid probability weight" p1

/-- Lines 108-119: the array `iterations` after the `-i` block. -/
def iterations_block (options : List Opt) (p : Proc) : Result (Arr3 Nat) :=
  let iterations : Arr3 Nat := ⟨default_iterations, default_iterations, default_iterations⟩
  match gopt_arg options 'i' with
  | none => Result.cont iterations p
  | some arg_string =>
    let r := sscanf_uuu arg_string
    let p1 := p.log (Event.sscanf arg_string "%u,%u,%u")
    let iterations := store iterations r.vals
    if r.n = 3 then Result.cont iterations p1
    else if r.n = 1 then
      Result.cont { iterations with a1 := iterations.a0, a2 := iterations.a0 } p1
    else die "invalid number of iterations" p1

/-- Lines 121-132: the `-t` block, in both builds. -/
def threads_block (env : Env) (options : List Opt) (p : Proc) : Result Unit :=
  match gopt_arg options 't' with
  | none => Result.cont () p
  | some arg_string =>
    if env.USE_OPENMP then
      let r := sscanf_u arg_string
      let p1 := p.log (Event.sscanf arg_string "%u")
      if r.n ≠ 1 ∨ r.vals.headD 0 = 0 then die "invalid number of threads" p1
      else Result.cont () (p1.log (Event.omp_set_num_threads (r.vals.headD 0)))
    else die "this version is compiled without support for threads" p

/-- The call `fopen(path, "wb")`: the stream (`none` is `NULL`) and the
process state after the call. -/
def fopen_wb (path : String) (p : Proc) : Option String × Proc :=
  if p.fs.can_write path then
    (some path, ⟨p.trace ++ [Event.fopen path "wb" true], p.fs.truncate path⟩)
  else (none, p.log (Event.fopen path "wb" false))

/-- The call `fopen(path, "rb")`. -/
def fopen_rb (path : String) (p : Proc) : Option String × Proc :=
  if p.fs.fopen_rb path then (some path, p.log (Event.fopen path "rb" true))
  else (none, p.log (Event.fopen path "rb" false))

/-- The string `argv[i]`. -/
def argv_at (argv : List String) (i : Nat) : String := (argv.get? i).getD ""

/-- Lines 134-143: the three streams are opened; the value is `csv_log`. -/
def open_block (options : List Opt) (argv : List String) (p : Proc) :
    Result (Option String) :=
  let argv1 := argv_at argv 1
  let argv2 := argv_at argv 2
  let r_in := fopen_rb argv1 p
  match r_in.1 with
  | none => die_perror "could not open input file `%s`" (PrintfArg.str argv1) r_in.2
  | some _ =>
    let r_out := fopen_wb argv2 r_in.2
    match r_out.1 with
    | none => die_perror "could not open output file `%s`" (PrintfArg.str argv2) r_out.2
    | some _ =>
      match gopt_arg options 'c' with
      | none => Result.cont none r_out.2
      | some arg_string =>
        let r_csv := fopen_wb arg_string r_out.2
        let csv_log := r_csv.1
        match csv_log with
        | none => die_perror "could not open csv log `%s`" (PrintfArg.file csv_log) r_csv.2
        | some _ => Result.cont csv_log r_csv.2

/-- Lines 149-151: `read_jpeg(in, &jpeg)` reads the stream opened on
`argv[1]`; `fclose(in)`. -/
def read_block (env : Env) (argv : List String) (p : Proc) : Result jpeg :=
  let argv1 := argv_at argv 1
  let result := env.read_jpeg ((p.fs.file argv1).getD [])
  let p1 := p.log (Event.read_jpeg argv1 result)
  match result with
  | none => Result.exited p1
  | some j => Result.cont j (p1.log (Event.fclose argv1))

/-- Lines 154-155: body of the decode loop. -/
def decode_body (env : Env) (c : Fin 3) (j : jpeg) (p : Proc) : Result jpeg :=
  let coef := j.coefs.get c
  Result.cont { j with coefs := j.coefs.set c (env.decode_coefficients coef (j.quant_table.get c)) }
    (p.log (Event.decode_coefficients c.val))

/-- Lines 159-166: body of the unbox loop. The size `coef->h * coef->w` is an
`unsigned` product. -/
def unbox_body (env : Env) (i : Fin 3) (j : jpeg) (p : Proc) : Result jpeg :=
  let coef := j.coefs.get i
  let n := (coef.h * coef.w) % 2 ^ 32
  if env.alloc_real i.val n then
    let temp := env.unbox coef.fdata coef.w coef.h
    Result.cont { j with coefs := j.coefs.set i { coef with fdata := temp } }
      (((p.log (Event.alloc_real n true)).log (Event.unbox i.val coef.w coef.h)).log
        (Event.free_real i.val))
  else die "allocation error" (p.log (Event.alloc_real n false))

/-- The plane `jpeg.coefs[i]` as the solver loop finds it, by lines 153-167:
decoded with its quantisation table, then unboxed. -/
def prepared (env : Env) (j : jpeg) (i : Fin 3) : coef :=
  { env.decode_coefficients (j.coefs.get i) (j.quant_table.get i) with
    fdata := env.unbox (env.decode_coefficients (j.coefs.get i) (j.quant_table.get i)).fdata
      (env.decode_coefficients (j.coefs.get i) (j.quant_table.get i)).w
      (env.decode_coefficients (j.coefs.get i) (j.quant_table.get i)).h }

/-- Lines 179-182: body of the solver loop; the state is the image and the
logger. -/
def compute_body (env : Env) (quiet : Bool) (pb : progressbar)
    (weights pweights : Arr3 ℚ) (iterations : Arr3 Nat)
    (i : Fin 3) (s : jpeg × logger) (p : Proc) : Result (jpeg × logger) :=
  let log : logger := { s.2 with channel := i.val }
  let coef := s.1.coefs.get i
  let quant_table := s.1.quant_table.get i
  let sink : Option progressbar := if quiet then none else some pb
  let solved :=
    env.compute coef log sink quant_table (weights.get i) (pweights.get i) (iterations.get i)
  Result.cont ({ s.1 with coefs := s.1.coefs.set i solved }, log)
    (p.log (Event.compute i.val coef log sink quant_table (weights.get i) (pweights.get i)
      (iterations.get i)))

/-- Lines 192-194: `fdata[i] += 128.` for `i` from `0` up to `n`. -/
def add128 (fdata : List ℚ) (n : Nat) : List ℚ :=
  (List.range n).foldl (fun fd i => fd.set i (plus_128 (fd.getD i 0))) fdata

/-- Line 197: body of the upsample loop. -/
def upsample_body (env : Env) (i : Fin 3) (j : jpeg) (p : Proc) : Result jpeg :=
  let coef := j.coefs.get i
  Result.cont { j with coefs := j.coefs.set i (env.upsample coef j.w j.h) }
    (p.log (Event.upsample i.val coef j.w j.h))

/-- Lines 203-206: body of the final loop. -/
def free_body (i : Fin 3) (u : Unit) (p : Proc) : Result Unit :=
  Result.cont u ((p.log (Event.free_real i.val)).log (Event.free i.val))

/-- Lines 169-189: the logger and the progress bar are set up, the solver loop
runs over the three channels, and the progress bar and the csv log are closed.
The value is the image after the loop. -/
def solve_block (env : Env) (quiet : Bool) (csv_log : Option String)
    (weights pweights : Arr3 ℚ) (iterations : Arr3 Nat) (j : jpeg) (p : Proc) : Result jpeg :=
  let log : logger := ⟨csv_log, 0⟩
  let p1 := p.log (Event.logger_start csv_log)
  let pb : progressbar := ⟨(iterations.a0 + iterations.a1 + iterations.a2) % 2 ^ 32⟩
  let p2 := if quiet then p1 else p1.log (Event.progressbar_start pb.total)
  (for3 (compute_body env quiet pb weights pweights iterations) (j, log) p2).bind fun s p3 =>
  let p4 := if quiet then p3 else p3.log Event.progressbar_done
  let p5 := match csv_log with
    | none => p4
    | some path => p4.log (Event.fclose path)
  Result.cont s.1 p5

/-- Lines 191-206: the luma offset, the upsample loop, the encoder, and the
final loop of `free` calls. -/
def output_block (env : Env) (argv : List String) (j : jpeg) (p : Proc) : Result Unit :=
  let coef := j.coefs.get 0
  let luma : Jpeg2png.coef := { coef with fdata := add128 coef.fdata ((coef.h * coef.w) % 2 ^ 32) }
  let j1 : jpeg := { j with coefs := j.coefs.set 0 luma }
  (for3 (upsample_body env) j1 p).bind fun j2 p6 =>
  let argv2 := argv_at argv 2
  let png := env.write_png j2.w j2.h (j2.coefs.get 0) (j2.coefs.get 1) (j2.coefs.get 2)
  let p7 : Proc :=
    ⟨p6.trace ++ [Event.write_png argv2 j2.w j2.h (j2.coefs.get 0) (j2.coefs.get 1)
        (j2.coefs.get 2), Event.fclose argv2],
      p6.fs.write argv2 png⟩
  for3 free_body () p7

/-- Lines 74-207: `main`, run on the options and `argv` left by `gopt_sort`
and on the file system `fs`. -/
def main (env : Env) (options : List Opt) (argv : List String) (fs : FS) : Outcome :=
  Result.outcome <|
    (usage_block env options argv ⟨[], fs⟩).bind fun _ p0 =>
    (weights_block options p0).bind fun weights p1 =>
    (pweights_block options p1).bind fun pweights p2 =>
    (iterations_block options p2).bind fun iterations p3 =>
    (threads_block env options p3).bind fun _ p4 =>
    (open_block options argv p4).bind fun csv_log p5 =>
    let quiet : Bool := gopt options 'q' ≠ 0
    (read_block env argv (p5.log Event.gopt_free)).bind fun j p6 =>
    (for3 (decode_body env) j p6).bind fun j1 p7 =>
    (for3 (unbox_body env) j1 p7).bind fun j2 p8 =>
    (solve_block env quiet csv_log weights pweights iterations j2 p8).bind fun j3 p9 =>
    output_block env argv j3 p9

/-! ## Sample inputs -/

/-- A plane of two samples, the `float` values `0.1f` and `2`. -/
def sample_coef : coef := ⟨1, 2, [], [13421773 / 134217728, 2]⟩

/-- An image declared 7 wide and 5 high, with three planes. -/
def sample_jpeg : jpeg := ⟨5, 7, ⟨[1], [2], [3]⟩, ⟨sample_coef, sample_coef, sample_coef⟩⟩

/-- Collaborators that decode the two-byte file `[255, 216]` to `sample_jpeg`
and terminate on any other input, never fail to allocate, leave planes as
they are and encode every image as one byte. -/
def sample_env : Env where
  USE_OPENMP := false
  read_jpeg := fun b => if b = [255, 216] then some sample_jpeg else none
  decode_coefficients := fun c _ => c
  alloc_real := fun _ _ => true
  unbox := fun f _ _ => f
  compute := fun c _ _ _ _ _ _ => c
  upsample := fun c _ _ => c
  write_png := fun _ _ _ _ _ => [137]

/-- A file system holding a decodable `in.jpg`, an undecodable `bad.jpg` and
an old `out.png`; every file can be read, and every path can be opened for
writing except `/nonexistent/log.csv`. -/
def sample_fs : FS where
  file := fun q =>
    if q = "in.jpg" then some [255, 216]
    else if q = "bad.jpg" then some [0]
    else if q = "out.png" then some [1, 2, 3]
    else none
  can_read := fun _ => true
  can_write := fun q => q ≠ "/nonexistent/log.csv"

/-- The command line `jpeg2png in.jpg out.png` after option sorting. -/
def sample_argv : List String := ["jpeg2png", "in.jpg", "out.png"]

/-! ## Lemmas on the blocks of `main` -/

theorem mem_log {p : Proc} {e x : Event} : x ∈ (p.log e).trace ↔ x ∈ p.trace ∨ x = e := by
  simp [Proc.log]

theorem getLast_log (p : Proc) (e : Event) : (p.log e).trace.getLast? = some e := by
  simp [Proc.log]

theorem forall_mem_log {Q : Event → Prop} {p : Proc} {e : Event}
    (hp : ∀ x ∈ p.trace, Q x) (he : Q e) : ∀ x ∈ (p.log e).trace, Q x := by
  intro x hx
  rcases mem_log.1 hx with h | h
  · exact hp x h
  · subst h; exact he

theorem usage_block_cont {env : Env} {options : List Opt} {argv : List String} {p p' : Proc}
    {u : Unit} (h : usage_block env options argv p = Result.cont u p') :
    p' = p ∧ argv.length = 3 ∧ gopt options 'h' = 0 := by
  unfold usage_block at h
  split at h
  · simp [usage] at h
  · rename_i hc
    simp only [not_or, not_not] at hc
    injection h with _ hp
    exact ⟨hp.symm, hc.1, hc.2⟩

/-- The `-w` block leaves the file system alone and adds only `sscanf` and
`die` calls to the trace. -/
theorem weights_block_frame (options : List Opt) (p : Proc) (Q : Event → Prop)
    (hs : ∀ s f, Q (Event.sscanf s f)) (hd : ∀ m, Q (Event.die m))
    (hp : ∀ e ∈ p.trace, Q e) :
    (weights_block options p).proc.fs = p.fs ∧ ∀ e ∈ (weights_block options p).proc.trace, Q e := by
  unfold weights_block
  cases gopt_arg options 'w' with
  | none => exact ⟨rfl, hp⟩
  | some s =>
    dsimp only
    split_ifs
    · exact ⟨rfl, forall_mem_log hp (hs _ _)⟩
    · exact ⟨rfl, forall_mem_log (forall_mem_log hp (hs _ _)) (hd _)⟩

theorem pweights_block_frame (options : List Opt) (p : Proc) (Q : Event → Prop)
    (hs : ∀ s f, Q (Event.sscanf s f)) (hd : ∀ m, Q (Event.die m))
    (hp : ∀ e ∈ p.trace, Q e) :
    (pweights_block options p).proc.fs = p.fs ∧
      ∀ e ∈ (pweights_block options p).proc.trace, Q e := by
  unfold pweights_block
  cases gopt_arg options 'p' with
  | none => exact ⟨rfl, hp⟩
  | some s =>
    dsimp only
    split_ifs
    · exact ⟨rfl, forall_mem_log hp (hs _ _)⟩
    · exact ⟨rfl, forall_mem_log hp (hs _ _)⟩
    · exact ⟨rfl, forall_mem_log (forall_mem_log hp (hs _ _)) (hd _)⟩

theorem iterations_block_frame (options : List Opt) (p : Proc) (Q : Event → Prop)
    (hs : ∀ s f, Q (Event.sscanf s f)) (hd : ∀ m, Q (Event.die m))
    (hp : ∀ e ∈ p.trace, Q e) :
    (iterations_block options p).proc.fs = p.fs ∧
      ∀ e ∈ (iterations_block options p).proc.trace, Q e := by
  unfold iterations_block
  cases gopt_arg options 'i' with
  | none => exact ⟨rfl, hp⟩
  | some s =>
    dsimp only
    split_ifs
    · exact ⟨rfl, forall_mem_log hp (hs _ _)⟩
    · exact ⟨rfl, forall_mem_log hp (hs _ _)⟩
    · exact ⟨rfl, forall_mem_log (forall_mem_log hp (hs _ _)) (hd _)⟩

theorem threads_block_frame (env : Env) (options : List Opt) (p : Proc) (Q : Event → Prop)
    (hs : ∀ s f, Q (Event.sscanf s f)) (hd1 : Q (Event.die "invalid number of threads"))
    (hd2 : Q (Event.die "this version is compiled without support for threads"))
    (ho : ∀ n, Q (Event.omp_set_num_threads n))
    (hp : ∀ e ∈ p.trace, Q e) :
    (threads_block env options p).proc.fs = p.fs ∧
      ∀ e ∈ (threads_block env options p).proc.trace, Q e := by
  unfold threads_block
  cases gopt_arg options 't' with
  | none => exact ⟨rfl, hp⟩
  | some s =>
    dsimp only
    split_ifs
    · exact ⟨rfl, forall_mem_log (forall_mem_log hp (hs _ _)) hd1⟩
    · exact ⟨rfl, forall_mem_log (forall_mem_log hp (hs _ _)) (ho _)⟩
    · exact ⟨rfl, forall_mem_log hp hd2⟩

@[simp]
theorem Arr3.get_zero {α : Type} (a : Arr3 α) : a.get 0 = a.a0 := rfl
@[simp]
theorem Arr3.get_one {α : Type} (a : Arr3 α) : a.get 1 = a.a1 := rfl
@[simp]
theorem Arr3.get_two {α : Type} (a : Arr3 α) : a.get 2 = a.a2 := rfl
@[simp]
theorem Arr3.set_zero {α : Type} (a : Arr3 α) (v : α) : a.set 0 v = ⟨v, a.a1, a.a2⟩ := rfl
@[simp]
theorem Arr3.set_one {α : Type} (a : Arr3 α) (v : α) : a.set 1 v = ⟨a.a0, v, a.a2⟩ := rfl
@[simp]
theorem Arr3.set_two {α : Type} (a : Arr3 α) (v : α) : a.set 2 v = ⟨a.a0, a.a1, v⟩ := rfl

theorem bind_cont {α β : Type} {r : Result α} {k : α → Proc → Result β} {b : β} {q : Proc}
    (h : r.bind k = Result.cont b q) : ∃ a p, r = Result.cont a p ∧ k a p = Result.cont b q := by
  cases r with
  | exited p => simp [Result.bind] at h
  | cont a p => exact ⟨a, p, rfl, h⟩

theorem for3_cont {σ : Type} {body : Fin 3 → σ → Proc → Result σ} {s s' : σ} {p p' : Proc}
    (h : for3 body s p = Result.cont s' p') :
    ∃ s1 p1 s2 p2, body 0 s p = Result.cont s1 p1 ∧ body 1 s1 p1 = Result.cont s2 p2 ∧
      body 2 s2 p2 = Result.cont s' p' := by
  unfold for3 at h
  obtain ⟨s1, p1, h1, h⟩ := bind_cont h
  obtain ⟨s2, p2, h2, h⟩ := bind_cont h
  exact ⟨s1, p1, s2, p2, h1, h2, h⟩

/-- What one round of the unbox loop does when the allocation succeeds. -/
theorem unbox_body_cont {env : Env} {i : Fin 3} {j j' : jpeg} {p p' : Proc}
    (h : unbox_body env i j p = Result.cont j' p') :
    j' = { j with coefs := j.coefs.set i { j.coefs.get i with fdata := env.unbox (j.coefs.get i).fdata (j.coefs.get i).w (j.coefs.get i).h } } ∧
    p'.fs = p.fs ∧
    ∀ Q : Event → Prop, (∀ e, e.plain = true → Q e) →
      (∀ e ∈ p.trace, Q e) → ∀ e ∈ p'.trace, Q e := by
  unfold unbox_body at h
  dsimp only at h
  split_ifs at h
  · injection h with hj hp
    subst hj hp
    exact ⟨rfl, rfl, fun Q hQ hs => forall_mem_log (forall_mem_log (forall_mem_log hs
      (hQ _ rfl)) (hQ _ rfl)) (hQ _ rfl)⟩
  · simp [die] at h

theorem decode_body_cont {env : Env} {c : Fin 3} {j j' : jpeg} {p p' : Proc}
    (h : decode_body env c j p = Result.cont j' p') :
    j' = { j with coefs := j.coefs.set c (env.decode_coefficients (j.coefs.get c) (j.quant_table.get c)) } ∧
    p'.fs = p.fs ∧
    ∀ Q : Event → Prop, (∀ e, e.plain = true → Q e) →
      (∀ e ∈ p.trace, Q e) → ∀ e ∈ p'.trace, Q e := by
  unfold decode_body at h
  injection h with hj hp
  subst hj hp
  exact ⟨rfl, rfl, fun Q hQ hs => forall_mem_log hs (hQ _ rfl)⟩

/-- The image handed to the solver loop: every plane decoded, then unboxed. -/
theorem unbox_loop_cont {env : Env} {j j1 j2 : jpeg} {p p7 p8 : Proc}
    (hd : for3 (decode_body env) j p = Result.cont j1 p7)
    (hu : for3 (unbox_body env) j1 p7 = Result.cont j2 p8) :
    j2 = { j with coefs := ⟨prepared env j 0, prepared env j 1, prepared env j 2⟩ } ∧
    p8.fs = p.fs ∧
    ∀ Q : Event → Prop, (∀ e, e.plain = true → Q e) →
      (∀ e ∈ p.trace, Q e) → ∀ e ∈ p8.trace, Q e := by
  obtain ⟨a1, q1, a2, q2, d0, d1, d2⟩ := for3_cont hd
  obtain ⟨b1, r1, b2, r2, u0, u1, u2⟩ := for3_cont hu
  obtain ⟨e1, f1, t1⟩ := decode_body_cont d0
  obtain ⟨e2, f2, t2⟩ := decode_body_cont d1
  obtain ⟨e3, f3, t3⟩ := decode_body_cont d2
  obtain ⟨e4, f4, t4⟩ := unbox_body_cont u0
  obtain ⟨e5, f5, t5⟩ := unbox_body_cont u1
  obtain ⟨e6, f6, t6⟩ := unbox_body_cont u2
  refine ⟨?_, ?_, fun Q hQ hs => t6 Q hQ (t5 Q hQ (t4 Q hQ (t3 Q hQ (t2 Q hQ (t1 Q hQ hs)))))⟩
  · subst e1 e2 e3 e4 e5 e6
    simp [prepared]
  · rw [f6, f5, f4, f3, f2, f1]

theorem weights_block_cont {options : List Opt} {p p' : Proc} {w : Arr3 ℚ}
    (h : weights_block options p = Result.cont w p') :
    (gopt_arg options 'w' = none ∧ w = ⟨default_weight, 0, 0⟩) ∨
    ∃ s, gopt_arg options 'w' = some s ∧ ((sscanf_fff s).n = 3 ∨ (sscanf_fff s).n = 1) ∧
      w = store ⟨default_weight, 0, 0⟩ (sscanf_fff s).vals := by
  unfold weights_block at h
  cases hg : gopt_arg options 'w' with
  | none =>
    rw [hg] at h
    injection h with hw _
    exact Or.inl ⟨rfl, hw.symm⟩
  | some s =>
    rw [hg] at h
    dsimp only at h
    split_ifs at h with hn
    · injection h with hw _
      exact Or.inr ⟨s, rfl, hn, hw.symm⟩
    · simp [die] at h

theorem weights_block_exit {options : List Opt} {p p' : Proc}
    (h : weights_block options p = Result.exited p') :
    ∃ s, gopt_arg options 'w' = some s ∧ ¬ ((sscanf_fff s).n = 3 ∨ (sscanf_fff s).n = 1) ∧
      p' = (p.log (Event.sscanf s "%f,%f,%f")).log (Event.die "invalid weight") := by
  unfold weights_block at h
  cases hg : gopt_arg options 'w' with
  | none => rw [hg] at h; simp at h
  | some s =>
    rw [hg] at h
    dsimp only at h
    split_ifs at h with hn
    · simp only [die] at h
      injection h with hp
      exact ⟨s, rfl, hn, hp.symm⟩

theorem pweights_block_cont {options : List Opt} {p p' : Proc} {w : Arr3 ℚ}
    (h : pweights_block options p = Result.cont w p') :
    (gopt_arg options 'p' = none ∧ w = ⟨default_pweight, default_pweight, default_pweight⟩) ∨
    ∃ s, gopt_arg options 'p' = some s ∧
      (((sscanf_fff s).n = 3 ∧
          w = store ⟨default_pweight, default_pweight, default_pweight⟩ (sscanf_fff s).vals) ∨
        ((sscanf_fff s).n = 1 ∧
          w = ⟨(store ⟨default_pweight, default_pweight, default_pweight⟩ (sscanf_fff s).vals).a0,
            (store ⟨default_pweight, default_pweight, default_pweight⟩ (sscanf_fff s).vals).a0,
            (store ⟨default_pweight, default_pweight, default_pweight⟩ (sscanf_fff s).vals).a0⟩)) := by
  unfold pweights_block at h
  cases hg : gopt_arg options 'p' with
  | none =>
    rw [hg] at h
    injection h with hw _
    exact Or.inl ⟨rfl, hw.symm⟩
  | some s =>
    rw [hg] at h
    dsimp only at h
    split_ifs at h with h3 h1
    · injection h with hw _
      exact Or.inr ⟨s, rfl, Or.inl ⟨h3, hw.symm⟩⟩
    · injection h with hw _
      exact Or.inr ⟨s, rfl, Or.inr ⟨h1, hw.symm⟩⟩
    · simp [die] at h

theorem pweights_block_exit {options : List Opt} {p p' : Proc}
    (h : pweights_block options p = Result.exited p') :
    ∃ s, gopt_arg options 'p' = some s ∧ ¬ ((sscanf_fff s).n = 3 ∨ (sscanf_fff s).n = 1) ∧
      p' = (p.log (Event.sscanf s "%f,%f,%f")).log (Event.die "invalid probability weight") := by
  unfold pweights_block at h
  cases hg : gopt_arg options 'p' with
  | none => rw [hg] at h; simp at h
  | some s =>
    rw [hg] at h
    dsimp only at h
    split_ifs at h with h3 h1
    · simp only [die] at h
      injection h with hp
      exact ⟨s, rfl, by simp [h3, h1], hp.symm⟩

theorem iterations_block_cont {options : List Opt} {p p' : Proc} {w : Arr3 Nat}
    (h : iterations_block options p = Result.cont w p') :
    (gopt_arg options 'i' = none ∧
      w = ⟨default_iterations, default_iterations, default_iterations⟩) ∨
    ∃ s, gopt_arg options 'i' = some s ∧
      (((sscanf_uuu s).n = 3 ∧
          w = store ⟨default_iterations, default_iterations, default_iterations⟩
            (sscanf_uuu s).vals) ∨
        ((sscanf_uuu s).n = 1 ∧
          w = ⟨(store ⟨default_iterations, default_iterations, default_iterations⟩
              (sscanf_uuu s).vals).a0,
            (store ⟨default_iterations, default_iterations, default_iterations⟩
              (sscanf_uuu s).vals).a0,
            (store ⟨default_iterations, default_iterations, default_iterations⟩
              (sscanf_uuu s).vals).a0⟩)) := by
  unfold iterations_block at h
  cases hg : gopt_arg options 'i' with
  | none =>
    rw [hg] at h
    injection h with hw _
    exact Or.inl ⟨rfl, hw.symm⟩
  | some s =>
    rw [hg] at h
    dsimp only at h
    split_ifs at h with h3 h1
    · injection h with hw _
      exact Or.inr ⟨s, rfl, Or.inl ⟨h3, hw.symm⟩⟩
    · injection h with hw _
      exact Or.inr ⟨s, rfl, Or.inr ⟨h1, hw.symm⟩⟩
    · simp [die] at h

theorem iterations_block_exit {options : List Opt} {p p' : Proc}
    (h : iterations_block options p = Result.exited p') :
    ∃ s, gopt_arg options 'i' = some s ∧ ¬ ((sscanf_uuu s).n = 3 ∨ (sscanf_uuu s).n = 1) ∧
      p' = (p.log (Event.sscanf s "%u,%u,%u")).log (Event.die "invalid number of iterations") := by
  unfold iterations_block at h
  cases hg : gopt_arg options 'i' with
  | none => rw [hg] at h; simp at h
  | some s =>
    rw [hg] at h
    dsimp only at h
    split_ifs at h with h3 h1
    · simp only [die] at h
      injection h with hp
      exact ⟨s, rfl, by simp [h3, h1], hp.symm⟩

theorem truncate_file_self (fs : FS) (path : String) : (fs.truncate path).file path = some [] := by
  simp [FS.truncate]

theorem truncate_truncate_file (fs : FS) (path q : String) :
    ((fs.truncate path).truncate q).file path = some [] := by
  simp only [FS.truncate]
  split_ifs <;> rfl

theorem fopen_rb_ok {path : String} {p : Proc} (h : p.fs.fopen_rb path = true) :
    fopen_rb path p = (some path, p.log (Event.fopen path "rb" true)) := by
  simp [fopen_rb, h]

theorem fopen_rb_fail {path : String} {p : Proc} (h : p.fs.fopen_rb path = false) :
    fopen_rb path p = (none, p.log (Event.fopen path "rb" false)) := by
  simp [fopen_rb, h]

theorem fopen_wb_ok {path : String} {p : Proc} (h : p.fs.can_write path = true) :
    fopen_wb path p =
      (some path, ⟨p.trace ++ [Event.fopen path "wb" true], p.fs.truncate path⟩) := by
  simp [fopen_wb, h]

theorem fopen_wb_fail {path : String} {p : Proc} (h : p.fs.can_write path = false) :
    fopen_wb path p = (none, p.log (Event.fopen path "wb" false)) := by
  simp [fopen_wb, h]

/-- When the three streams are open, `csv_log` is open exactly if `-c` was
given, the output file exists and is empty, and only start-up calls were
added to the trace. -/
theorem open_block_cont {options : List Opt} {argv : List String} {p p' : Proc}
    {csv : Option String} (h : open_block options argv p = Result.cont csv p') :
    csv = gopt_arg options 'c' ∧ p'.fs.file (argv_at argv 2) = some [] ∧
    Event.fopen (argv_at argv 2) "wb" true ∈ p'.trace ∧
    ∀ Q : Event → Prop, (∀ e, e.plain = true → Q e) →
      (∀ e ∈ p.trace, Q e) → ∀ e ∈ p'.trace, Q e := by
  unfold open_block at h
  dsimp only at h
  cases h1 : p.fs.fopen_rb (argv_at argv 1) with
  | false => simp [fopen_rb_fail h1, die_perror] at h
  | true =>
    rw [fopen_rb_ok h1] at h
    dsimp only at h
    cases h2 : (p.log (Event.fopen (argv_at argv 1) "rb" true)).fs.can_write (argv_at argv 2) with
    | false => simp [fopen_wb_fail h2, die_perror] at h
    | true =>
      rw [fopen_wb_ok h2] at h
      dsimp only at h
      cases hc : gopt_arg options 'c' with
      | none =>
        rw [hc] at h
        injection h with hv hp
        subst hv hp
        refine ⟨rfl, truncate_file_self _ _, by simp, fun Q hQ hs e he => ?_⟩
        simp only [List.mem_append, List.mem_singleton] at he
        rcases he with he | he
        · exact forall_mem_log hs (hQ _ (by rfl)) e he
        · subst he; exact hQ _ rfl
      | some s =>
        rw [hc] at h
        dsimp only at h
        cases h3 : (p.fs.truncate (argv_at argv 2)).can_write s with
        | false =>
          rw [fopen_wb_fail (by exact h3)] at h
          simp [die_perror] at h
        | true =>
          rw [fopen_wb_ok (by exact h3)] at h
          injection h with hv hp
          subst hv hp
          refine ⟨rfl, truncate_truncate_file _ _ _, by simp, fun Q hQ hs e he => ?_⟩
          simp only [List.mem_append, List.mem_singleton] at he
          rcases he with (he | he) | he
          · exact forall_mem_log hs (hQ _ (by rfl)) e he
          · subst he; exact hQ _ rfl
          · subst he; exact hQ _ rfl

/-- An exit while the streams are opened happens either before the output was
opened, the file system being untouched, or after it, the output file then
being empty. -/
theorem open_block_exit {options : List Opt} {argv : List String} {p p' : Proc}
    (h : open_block options argv p = Result.exited p') :
    (p'.fs = p.fs ∧
      ((∀ e ∈ p.trace, e ≠ Event.fopen (argv_at argv 2) "wb" true) →
        ∀ e ∈ p'.trace, e ≠ Event.fopen (argv_at argv 2) "wb" true)) ∨
    (p'.fs.file (argv_at argv 2) = some [] ∧ Event.fopen (argv_at argv 2) "wb" true ∈ p'.trace ∧
      ((∀ e ∈ p.trace, e.setup = true) → ∀ e ∈ p'.trace, e.setup = true)) := by
  unfold open_block at h
  dsimp only at h
  cases h1 : p.fs.fopen_rb (argv_at argv 1) with
  | false =>
    rw [fopen_rb_fail h1] at h
    simp only [die_perror] at h
    injection h with hp
    subst hp
    refine Or.inl ⟨rfl, fun hs => ?_⟩
    exact forall_mem_log (forall_mem_log hs (by simp)) (by simp)
  | true =>
    rw [fopen_rb_ok h1] at h
    dsimp only at h
    cases h2 : (p.log (Event.fopen (argv_at argv 1) "rb" true)).fs.can_write (argv_at argv 2) with
    | false =>
      rw [fopen_wb_fail h2] at h
      simp only [die_perror] at h
      injection h with hp
      subst hp
      refine Or.inl ⟨rfl, fun hs => ?_⟩
      exact forall_mem_log (forall_mem_log (forall_mem_log hs (by simp)) (by simp)) (by simp)
    | true =>
      rw [fopen_wb_ok h2] at h
      dsimp only at h
      cases hc : gopt_arg options 'c' with
      | none => rw [hc] at h; simp at h
      | some s =>
        rw [hc] at h
        dsimp only at h
        cases h3 : (p.fs.truncate (argv_at argv 2)).can_write s with
        | true =>
          rw [fopen_wb_ok (by exact h3)] at h
          simp at h
        | false =>
          rw [fopen_wb_fail (by exact h3)] at h
          simp only [die_perror] at h
          injection h with hp
          subst hp
          refine Or.inr ⟨truncate_file_self _ _, by simp [Proc.log], fun hs e he => ?_⟩
          simp only [Proc.log, List.mem_append, List.mem_singleton] at he
          rcases he with (((he | he) | he) | he) | he
          · exact hs e he
          all_goals (subst he; rfl)

/-- Reading the image leaves the file system alone and keeps the trace so far. -/
theorem read_block_frame (env : Env) (argv : List String) (p : Proc) :
    (read_block env argv p).proc.fs = p.fs ∧
    (∀ e ∈ p.trace, e ∈ (read_block env argv p).proc.trace) ∧
    ∀ Q : Event → Prop, (∀ e, e.plain = true → Q e) →
      (∀ r, Q (Event.read_jpeg (argv_at argv 1) r)) →
      (∀ e ∈ p.trace, Q e) → ∀ e ∈ (read_block env argv p).proc.trace, Q e := by
  unfold read_block
  dsimp only
  cases env.read_jpeg ((p.fs.file (argv_at argv 1)).getD []) with
  | none =>
    exact ⟨rfl, fun e he => mem_log.2 (Or.inl he), fun Q _ hr hs => forall_mem_log hs (hr _)⟩
  | some j =>
    exact ⟨rfl, fun e he => mem_log.2 (Or.inl (mem_log.2 (Or.inl he))),
      fun Q hQ hr hs => forall_mem_log (forall_mem_log hs (hr _)) (hQ _ (by rfl))⟩

theorem read_block_cont {env : Env} {argv : List String} {p p' : Proc} {j : jpeg}
    (h : read_block env argv p = Result.cont j p') :
    p' = (p.log (Event.read_jpeg (argv_at argv 1) (some j))).log (Event.fclose (argv_at argv 1)) := by
  unfold read_block at h
  dsimp only at h
  cases hr : env.read_jpeg ((p.fs.file (argv_at argv 1)).getD []) with
  | none => rw [hr] at h; simp at h
  | some j0 =>
    rw [hr] at h
    injection h with hj hp
    subst hj hp
    rfl

/-- A round of the unbox loop leaves the file system alone and keeps the trace
so far, whether or not the allocation succeeds. -/
theorem unbox_body_frame (env : Env) (i : Fin 3) (j : jpeg) (p : Proc) :
    (unbox_body env i j p).proc.fs = p.fs ∧
    (∀ e ∈ p.trace, e ∈ (unbox_body env i j p).proc.trace) ∧
    ∀ Q : Event → Prop, (∀ e, e.plain = true → Q e) →
      (∀ e ∈ p.trace, Q e) → ∀ e ∈ (unbox_body env i j p).proc.trace, Q e := by
  unfold unbox_body
  dsimp only
  split_ifs
  · exact ⟨rfl, fun e he => mem_log.2 (Or.inl (mem_log.2 (Or.inl (mem_log.2 (Or.inl he))))),
      fun Q hQ hs => forall_mem_log (forall_mem_log (forall_mem_log hs (hQ _ (by rfl)))
        (hQ _ (by rfl))) (hQ _ (by rfl))⟩
  · exact ⟨rfl, fun e he => mem_log.2 (Or.inl (mem_log.2 (Or.inl he))),
      fun Q hQ hs => forall_mem_log (forall_mem_log hs (hQ _ (by rfl))) (hQ _ (by decide))⟩

theorem decode_body_frame (env : Env) (c : Fin 3) (j : jpeg) (p : Proc) :
    (decode_body env c j p).proc.fs = p.fs ∧
    (∀ e ∈ p.trace, e ∈ (decode_body env c j p).proc.trace) ∧
    ∀ Q : Event → Prop, (∀ e, e.plain = true → Q e) →
      (∀ e ∈ p.trace, Q e) → ∀ e ∈ (decode_body env c j p).proc.trace, Q e :=
  ⟨rfl, fun _ he => mem_log.2 (Or.inl he), fun _ hQ hs => forall_mem_log hs (hQ _ (by rfl))⟩

/-- A frame property of the loop body carries over to the loop. -/
theorem for3_frame {σ : Type} (body : Fin 3 → σ → Proc → Result σ)
    (hb : ∀ i s p, (body i s p).proc.fs = p.fs ∧
      (∀ e ∈ p.trace, e ∈ (body i s p).proc.trace) ∧
      ∀ Q : Event → Prop, (∀ e, e.plain = true → Q e) →
        (∀ e ∈ p.trace, Q e) → ∀ e ∈ (body i s p).proc.trace, Q e)
    (s : σ) (p : Proc) :
    (for3 body s p).proc.fs = p.fs ∧
    (∀ e ∈ p.trace, e ∈ (for3 body s p).proc.trace) ∧
    ∀ Q : Event → Prop, (∀ e, e.plain = true → Q e) →
      (∀ e ∈ p.trace, Q e) → ∀ e ∈ (for3 body s p).proc.trace, Q e := by
  unfold for3
  have h0 := hb 0 s p
  cases r0 : body 0 s p with
  | exited q => rw [r0] at h0; exact h0
  | cont s1 p1 =>
    rw [r0] at h0
    have h1 := hb 1 s1 p1
    simp only [Result.bind]
    cases r1 : body 1 s1 p1 with
    | exited q =>
      rw [r1] at h1
      exact ⟨h1.1.trans h0.1, fun e he => h1.2.1 e (h0.2.1 e he),
        fun Q hQ hs => h1.2.2 Q hQ (h0.2.2 Q hQ hs)⟩
    | cont s2 p2 =>
      rw [r1] at h1
      have h2 := hb 2 s2 p2
      exact ⟨h2.1.trans (h1.1.trans h0.1), fun e he => h2.2.1 e (h1.2.1 e (h0.2.1 e he)),
        fun Q hQ hs => h2.2.2 Q hQ (h1.2.2 Q hQ (h0.2.2 Q hQ hs))⟩

theorem setup_filter_nil {t : List Event} (f : Event → Bool)
    (hf : ∀ e, e.setup = true → f e = false) (ht : ∀ e ∈ t, e.setup = true) :
    t.filter f = [] := by
  rw [List.filter_eq_nil_iff]
  intro e he
  simp [hf e (ht e he)]

theorem setup_not_compute (e : Event) (h : e.setup = true) : e.is_compute = false := by
  cases e <;> simp_all [Event.setup, Event.is_compute]

theorem setup_not_upsample (e : Event) (h : e.setup = true) : e.is_upsample = false := by
  cases e <;> simp_all [Event.setup, Event.is_upsample]

theorem setup_not_write_png (e : Event) (h : e.setup = true) : e.is_write_png = false := by
  cases e <;> simp_all [Event.setup, Event.is_write_png]

/-- The solver part in closed form: it never exits, solves each plane with
its own table, weights and iteration count, and adds to the trace the logger
and progress-bar calls around the three `compute` calls. -/
theorem solve_block_eq (env : Env) (quiet : Bool) (csv : Option String)
    (weights pweights : Arr3 ℚ) (iterations : Arr3 Nat) (j : jpeg) (p : Proc) :
    solve_block env quiet csv weights pweights iterations j p =
      Result.cont
        { j with coefs :=
            ⟨env.compute j.coefs.a0 ⟨csv, 0⟩
                (if quiet then none
                  else some ⟨(iterations.a0 + iterations.a1 + iterations.a2) % 2 ^ 32⟩)
                j.quant_table.a0 weights.a0 pweights.a0 iterations.a0,
              env.compute j.coefs.a1 ⟨csv, 1⟩
                (if quiet then none
                  else some ⟨(iterations.a0 + iterations.a1 + iterations.a2) % 2 ^ 32⟩)
                j.quant_table.a1 weights.a1 pweights.a1 iterations.a1,
              env.compute j.coefs.a2 ⟨csv, 2⟩
                (if quiet then none
                  else some ⟨(iterations.a0 + iterations.a1 + iterations.a2) % 2 ^ 32⟩)
                j.quant_table.a2 weights.a2 pweights.a2 iterations.a2⟩ }
        ⟨p.trace ++ (Event.logger_start csv ::
            ((if quiet then []
              else [Event.progressbar_start
                ((iterations.a0 + iterations.a1 + iterations.a2) % 2 ^ 32)]) ++
            ([Event.compute 0 j.coefs.a0 ⟨csv, 0⟩
                (if quiet then none
                  else some ⟨(iterations.a0 + iterations.a1 + iterations.a2) % 2 ^ 32⟩)
                j.quant_table.a0 weights.a0 pweights.a0 iterations.a0,
              Event.compute 1 j.coefs.a1 ⟨csv, 1⟩
                (if quiet then none
                  else some ⟨(iterations.a0 + iterations.a1 + iterations.a2) % 2 ^ 32⟩)
                j.quant_table.a1 weights.a1 pweights.a1 iterations.a1,
              Event.compute 2 j.coefs.a2 ⟨csv, 2⟩
                (if quiet then none
                  else some ⟨(iterations.a0 + iterations.a1 + iterations.a2) % 2 ^ 32⟩)
                j.quant_table.a2 weights.a2 pweights.a2 iterations.a2] ++
            ((if quiet then [] else [Event.progressbar_done]) ++
              (match csv with
                | none => []
                | some path => [Event.fclose path]))))), p.fs⟩ := by
  cases quiet <;> cases csv <;>
    simp [solve_block, for3, compute_body, Result.bind, Proc.log]

/-- The output part in closed form: the luma plane is shifted, each plane is
upsampled to the declared image size, and the encoder gets the three
upsampled planes and the declared size. -/
theorem output_block_eq (env : Env) (argv : List String) (j : jpeg) (p : Proc) :
    output_block env argv j p =
      Result.cont ()
        ⟨p.trace ++
          [Event.upsample 0
              { j.coefs.a0 with
                fdata := add128 j.coefs.a0.fdata ((j.coefs.a0.h * j.coefs.a0.w) % 2 ^ 32) }
              j.w j.h,
            Event.upsample 1 j.coefs.a1 j.w j.h,
            Event.upsample 2 j.coefs.a2 j.w j.h,
            Event.write_png (argv_at argv 2) j.w j.h
              (env.upsample
                { j.coefs.a0 with
                  fdata := add128 j.coefs.a0.fdata ((j.coefs.a0.h * j.coefs.a0.w) % 2 ^ 32) }
                j.w j.h)
              (env.upsample j.coefs.a1 j.w j.h) (env.upsample j.coefs.a2 j.w j.h),
            Event.fclose (argv_at argv 2),
            Event.free_real 0, Event.free 0, Event.free_real 1, Event.free 1,
            Event.free_real 2, Event.free 2],
          p.fs.write (argv_at argv 2)
            (env.write_png j.w j.h
              (env.upsample
                { j.coefs.a0 with
                  fdata := add128 j.coefs.a0.fdata ((j.coefs.a0.h * j.coefs.a0.w) % 2 ^ 32) }
                j.w j.h)
              (env.upsample j.coefs.a1 j.w j.h) (env.upsample j.coefs.a2 j.w j.h))⟩ := by
  simp [output_block, for3, upsample_body, free_body, Result.bind, Proc.log]

theorem outcome_exited_status {p : Proc} : (Result.outcome (Result.exited p)).status ≠ 0 := by
  simp [Result.outcome, EXIT_FAILURE]

theorem plain_setup (e : Event) (h : e.plain = true) : e.setup = true := by
  simp only [Event.plain, Bool.and_eq_true] at h
  exact h.1.1

theorem plain_not_read (e : Event) (h : e.plain = true) : e.is_read_jpeg = false := by
  simp only [Event.plain, Bool.and_eq_true, Bool.not_eq_true'] at h
  exact h.1.2

theorem plain_or {j : jpeg} {path : String} (e : Event) (h : e.plain = true) :
    e = Event.read_jpeg path (some j) ∨ (e.setup = true ∧ e.is_read_jpeg = false) :=
  Or.inr ⟨plain_setup e h, plain_not_read e h⟩

/-- A run of `main` that returns went through every start-up block: the three
option blocks yielded the configuration, the streams were opened, the image
was read and unboxed, and the rest of the run is the solver part followed by
the output part. Up to the solver part the trace holds start-up calls only,
among them the one `read_jpeg` call. -/
theorem main_ok {env : Env} {options : List Opt} {argv : List String} {fs : FS}
    (h : (main env options argv fs).status = 0) :
    ∃ (weights pweights : Arr3 ℚ) (iterations : Arr3 Nat) (j : jpeg) (p1 p2 p3 p8 : Proc),
      argv.length = 3 ∧ gopt options 'h' = 0 ∧
      weights_block options ⟨[], fs⟩ = Result.cont weights p1 ∧
      pweights_block options p1 = Result.cont pweights p2 ∧
      iterations_block options p2 = Result.cont iterations p3 ∧
      (∀ e ∈ p8.trace, e = Event.read_jpeg (argv_at argv 1) (some j) ∨
        (e.setup = true ∧ e.is_read_jpeg = false)) ∧
      Event.read_jpeg (argv_at argv 1) (some j) ∈ p8.trace ∧
      p8.fs.file (argv_at argv 2) = some [] ∧
      main env options argv fs =
        ((solve_block env (decide (gopt options 'q' ≠ 0)) (gopt_arg options 'c')
            weights pweights iterations
            { j with coefs := ⟨prepared env j 0, prepared env j 1, prepared env j 2⟩ } p8).bind
          fun j3 p9 => output_block env argv j3 p9).outcome := by
  unfold main at h ⊢
  cases h0 : usage_block env options argv ⟨[], fs⟩ with
  | exited q => rw [h0] at h; exact absurd h outcome_exited_status
  | cont u p0 =>
    obtain ⟨e0, hlen, hh⟩ := usage_block_cont h0
    subst e0
    rw [h0] at h
    simp only [h0, Result.bind] at h ⊢
    cases hw : weights_block options ⟨[], fs⟩ with
    | exited q => rw [hw] at h; exact absurd h outcome_exited_status
    | cont weights p1 =>
      simp only [hw, Result.bind] at h ⊢
      cases hpw : pweights_block options p1 with
      | exited q => rw [hpw] at h; exact absurd h outcome_exited_status
      | cont pweights p2 =>
        simp only [hpw, Result.bind] at h ⊢
        cases hi : iterations_block options p2 with
        | exited q => rw [hi] at h; exact absurd h outcome_exited_status
        | cont iterations p3 =>
          simp only [hi, Result.bind] at h ⊢
          cases ht : threads_block env options p3 with
          | exited q => rw [ht] at h; exact absurd h outcome_exited_status
          | cont u4 p4 =>
            simp only [ht, Result.bind] at h ⊢
            cases ho : open_block options argv p4 with
            | exited q => rw [ho] at h; exact absurd h outcome_exited_status
            | cont csv p5 =>
              obtain ⟨hcsv, hfile, -, hs5⟩ := open_block_cont ho
              simp only [ho, Result.bind] at h ⊢
              cases hr : read_block env argv (p5.log Event.gopt_free) with
              | exited q => rw [hr] at h; exact absurd h outcome_exited_status
              | cont j p6 =>
                have hp6 := read_block_cont hr
                simp only [hr, Result.bind] at h ⊢
                cases hd : for3 (decode_body env) j p6 with
                | exited q => rw [hd] at h; exact absurd h outcome_exited_status
                | cont j1 p7 =>
                  simp only [hd, Result.bind] at h ⊢
                  cases hu : for3 (unbox_body env) j1 p7 with
                  | exited q => rw [hu] at h; exact absurd h outcome_exited_status
                  | cont j2 p8 =>
                    obtain ⟨hj2, hfs8, hQ8⟩ := unbox_loop_cont hd hu
                    subst hj2 hcsv
                    have fw := weights_block_frame options ⟨[], fs⟩
                      (fun e => e = Event.read_jpeg (argv_at argv 1) (some j) ∨
                        (e.setup = true ∧ e.is_read_jpeg = false))
                      (fun _ _ => Or.inr ⟨rfl, rfl⟩) (fun _ => Or.inr ⟨rfl, rfl⟩) (by simp)
                    rw [hw] at fw
                    have fp := pweights_block_frame options p1 _
                      (fun _ _ => Or.inr ⟨rfl, rfl⟩) (fun _ => Or.inr ⟨rfl, rfl⟩) fw.2
                    rw [hpw] at fp
                    have fi := iterations_block_frame options p2 _
                      (fun _ _ => Or.inr ⟨rfl, rfl⟩) (fun _ => Or.inr ⟨rfl, rfl⟩) fp.2
                    rw [hi] at fi
                    have ft := threads_block_frame env options p3 _
                      (fun _ _ => Or.inr ⟨rfl, rfl⟩) (Or.inr ⟨rfl, rfl⟩) (Or.inr ⟨rfl, rfl⟩)
                      (fun _ => Or.inr ⟨rfl, rfl⟩) fi.2
                    rw [ht] at ft
                    have h5 := hs5 _ plain_or ft.2
                    have h6 : ∀ e ∈ p6.trace, e = Event.read_jpeg (argv_at argv 1) (some j) ∨
                        (e.setup = true ∧ e.is_read_jpeg = false) := by
                      rw [hp6]
                      exact forall_mem_log (forall_mem_log (forall_mem_log h5
                        (Or.inr ⟨rfl, rfl⟩)) (Or.inl rfl)) (Or.inr ⟨rfl, rfl⟩)
                    have h8 := hQ8 _ plain_or h6
                    have m6 : Event.read_jpeg (argv_at argv 1) (some j) ∈ p6.trace := by
                      rw [hp6]; simp [Proc.log]
                    have fd := for3_frame (decode_body env) (decode_body_frame env) j p6
                    rw [hd] at fd
                    have fu := for3_frame (unbox_body env) (unbox_body_frame env) j1 p7
                    rw [hu] at fu
                    refine ⟨weights, pweights, iterations, j, p1, p2, p3, p8, hlen, hh, rfl, hpw,
                      hi, h8, fu.2.1 _ (fd.2.1 _ m6), ?_, rfl⟩
                    rw [hfs8, hp6]; exact hfile

/-- The `compute` calls of a run of `main` that returns, with the
configuration the option blocks produced and the image `read_jpeg` returned. -/
theorem main_ok_compute_calls {env : Env} {options : List Opt} {argv : List String} {fs : FS}
    (h : (main env options argv fs).status = 0) :
    ∃ (weights pweights : Arr3 ℚ) (iterations : Arr3 Nat) (j : jpeg) (p1 p2 p3 : Proc),
      weights_block options ⟨[], fs⟩ = Result.cont weights p1 ∧
      pweights_block options p1 = Result.cont pweights p2 ∧
      iterations_block options p2 = Result.cont iterations p3 ∧
      Event.read_jpeg (argv_at argv 1) (some j) ∈ (main env options argv fs).trace ∧
      compute_calls (main env options argv fs).trace =
        [Event.compute 0 (prepared env j 0) ⟨gopt_arg options 'c', 0⟩
            (if gopt options 'q' ≠ 0 then none
              else some ⟨(iterations.a0 + iterations.a1 + iterations.a2) % 2 ^ 32⟩)
            j.quant_table.a0 weights.a0 pweights.a0 iterations.a0,
          Event.compute 1 (prepared env j 1) ⟨gopt_arg options 'c', 1⟩
            (if gopt options 'q' ≠ 0 then none
              else some ⟨(iterations.a0 + iterations.a1 + iterations.a2) % 2 ^ 32⟩)
            j.quant_table.a1 weights.a1 pweights.a1 iterations.a1,
          Event.compute 2 (prepared env j 2) ⟨gopt_arg options 'c', 2⟩
            (if gopt options 'q' ≠ 0 then none
              else some ⟨(iterations.a0 + iterations.a1 + iterations.a2) % 2 ^ 32⟩)
            j.quant_table.a2 weights.a2 pweights.a2 iterations.a2] := by
  obtain ⟨weights, pweights, iterations, j, p1, p2, p3, p8, -, -, hw, hp, hi, hs, hj, -, hm⟩ :=
    main_ok h
  refine ⟨weights, pweights, iterations, j, p1, p2, p3, hw, hp, hi, ?_, ?_⟩
  · rw [hm, solve_block_eq]
    simp only [Result.bind, output_block_eq, Result.outcome]
    simp [hj]
  · have h0 : p8.trace.filter Event.is_compute = [] := by
      rw [List.filter_eq_nil_iff]
      intro e he
      rcases hs e he with rfl | ⟨h1, -⟩
      · simp [Event.is_compute]
      · simp [setup_not_compute e h1]
    rw [hm, solve_block_eq]
    simp only [Result.bind, output_block_eq, Result.outcome]
    cases hq : decide (gopt options 'q' ≠ 0) <;> cases gopt_arg options 'c' <;>
      simp [compute_calls, List.filter_append, List.filter_cons, Event.is_compute, h0] <;>
      simp_all

theorem solver_weights_filter (t : List Event) :
    solver_weights t = solver_weights (compute_calls t) := by
  unfold solver_weights compute_calls
  induction t with
  | nil => rfl
  | cons e t ih => cases e <;> simp_all [List.filter_cons, List.filterMap_cons, Event.is_compute]

theorem solver_pweights_filter (t : List Event) :
    solver_pweights t = solver_pweights (compute_calls t) := by
  unfold solver_pweights compute_calls
  induction t with
  | nil => rfl
  | cons e t ih => cases e <;> simp_all [List.filter_cons, List.filterMap_cons, Event.is_compute]

theorem solver_iterations_filter (t : List Event) :
    solver_iterations t = solver_iterations (compute_calls t) := by
  unfold solver_iterations compute_calls
  induction t with
  | nil => rfl
  | cons e t ih => cases e <;> simp_all [List.filter_cons, List.filterMap_cons, Event.is_compute]

/-- The configuration columns of a trace whose `compute` calls are known. -/
theorem solver_columns_of_calls {t : List Event} {c0 c1 c2 : coef} {l0 l1 l2 : logger}
    {s0 s1 s2 : Option progressbar} {q0 q1 q2 : List Nat} {w0 w1 w2 v0 v1 v2 : ℚ}
    {n0 n1 n2 : Nat}
    (h : compute_calls t = [Event.compute 0 c0 l0 s0 q0 w0 v0 n0,
      Event.compute 1 c1 l1 s1 q1 w1 v1 n1, Event.compute 2 c2 l2 s2 q2 w2 v2 n2]) :
    solver_weights t = [(0, w0), (1, w1), (2, w2)] ∧
    solver_pweights t = [(0, v0), (1, v1), (2, v2)] ∧
    solver_iterations t = [(0, n0), (1, n1), (2, n2)] := by
  rw [solver_weights_filter, solver_pweights_filter, solver_iterations_filter, h]
  exact ⟨rfl, rfl, rfl⟩

/-- The calls of a run of `main` that returns, from the image `read_jpeg`
returned on: that image is the only one the trace records; the planes the
`compute` calls leave behind are upsampled to the declared image size, the
luma plane after its shift by 128; `write_png` gets the declared size and the
upsampled planes, and its bytes end up in the output file; every `compute`
call comes before every `upsample` call. -/
theorem main_ok_calls {env : Env} {options : List Opt} {argv : List String} {fs : FS}
    (h : (main env options argv fs).status = 0) :
    ∃ (j : jpeg) (c0 c1 c2 : coef),
      Event.read_jpeg (argv_at argv 1) (some j) ∈ (main env options argv fs).trace ∧
      (∀ j', Event.read_jpeg (argv_at argv 1) (some j') ∈ (main env options argv fs).trace →
        j' = j) ∧
      (main env options argv fs).trace.filterMap (compute_result env) = [c0, c1, c2] ∧
      upsample_calls (main env options argv fs).trace =
        [Event.upsample 0 { c0 with fdata := add128 c0.fdata ((c0.h * c0.w) % 2 ^ 32) } j.w j.h,
          Event.upsample 1 c1 j.w j.h, Event.upsample 2 c2 j.w j.h] ∧
      write_png_calls (main env options argv fs).trace =
        [Event.write_png (argv_at argv 2) j.w j.h
          (env.upsample { c0 with fdata := add128 c0.fdata ((c0.h * c0.w) % 2 ^ 32) } j.w j.h)
          (env.upsample c1 j.w j.h) (env.upsample c2 j.w j.h)] ∧
      (∃ a b, (main env options argv fs).trace = a ++ b ∧ upsample_calls a = [] ∧
        compute_calls b = []) := by
  obtain ⟨weights, pweights, iterations, j, p1, p2, p3, p8, -, -, hw, hp, hi, hs, hj, -, hm⟩ :=
    main_ok h
  have hsetup : ∀ e ∈ p8.trace, e.setup = true := by
    intro e he
    rcases hs e he with rfl | ⟨h1, -⟩
    · rfl
    · exact h1
  have h1 : p8.trace.filter Event.is_upsample = [] := setup_filter_nil _ setup_not_upsample hsetup
  have h2 : p8.trace.filter Event.is_write_png = [] :=
    setup_filter_nil _ setup_not_write_png hsetup
  have h3 : p8.trace.filterMap (compute_result env) = [] := by
    rw [List.filterMap_eq_nil_iff]
    intro e he
    have := hsetup e he
    cases e <;> simp_all [Event.setup, compute_result]
  rw [hm, solve_block_eq]
  simp only [Result.bind, output_block_eq, Result.outcome]
  refine ⟨j,
    env.compute (prepared env j 0) ⟨gopt_arg options 'c', 0⟩
      (if decide (gopt options 'q' ≠ 0) = true then none
        else some ⟨(iterations.a0 + iterations.a1 + iterations.a2) % 2 ^ 32⟩)
      j.quant_table.a0 weights.a0 pweights.a0 iterations.a0,
    env.compute (prepared env j 1) ⟨gopt_arg options 'c', 1⟩
      (if decide (gopt options 'q' ≠ 0) = true then none
        else some ⟨(iterations.a0 + iterations.a1 + iterations.a2) % 2 ^ 32⟩)
      j.quant_table.a1 weights.a1 pweights.a1 iterations.a1,
    env.compute (prepared env j 2) ⟨gopt_arg options 'c', 2⟩
      (if decide (gopt options 'q' ≠ 0) = true then none
        else some ⟨(iterations.a0 + iterations.a1 + iterations.a2) % 2 ^ 32⟩)
      j.quant_table.a2 weights.a2 pweights.a2 iterations.a2, ?_, ?_, ?_, ?_, ?_, ?_⟩
  · simp [hj]
  · intro j' hj'
    simp only [List.mem_append, List.mem_cons] at hj'
    rcases hj' with (hj' | hj') | hj'
    · rcases hs _ hj' with e | ⟨-, e⟩
      · injection e with _ e
        injection e
      · simp [Event.is_read_jpeg] at e
    · cases hq : decide (gopt options 'q' ≠ 0) <;> cases hc : gopt_arg options 'c' <;>
        simp [hq, hc] at hj'
    · simp at hj'
  · cases hq : decide (gopt options 'q' ≠ 0) <;> cases hc : gopt_arg options 'c' <;>
      simp [List.filterMap_append, List.filterMap_cons, compute_result, h3]
  · cases hq : decide (gopt options 'q' ≠ 0) <;> cases hc : gopt_arg options 'c' <;>
      simp [upsample_calls, List.filter_append, List.filter_cons, Event.is_upsample, h1]
  · cases hq : decide (gopt options 'q' ≠ 0) <;> cases hc : gopt_arg options 'c' <;>
      simp [write_png_calls, List.filter_append, List.filter_cons, Event.is_write_png, h2]
  · refine ⟨_, _, rfl, ?_, ?_⟩
    · cases hq : decide (gopt options 'q' ≠ 0) <;> cases hc : gopt_arg options 'c' <;>
        simp [upsample_calls, List.filter_append, List.filter_cons, Event.is_upsample, h1]
    · simp [compute_calls, List.filter_cons, Event.is_compute]

theorem log2_fuel_spec (fuel : Nat) : ∀ n, n ≠ 0 → n ≤ fuel →
    2 ^ log2_fuel fuel n ≤ n ∧ n < 2 ^ (log2_fuel fuel n + 1) := by
  induction fuel with
  | zero => intro n h0 hle; omega
  | succ fuel ih =>
    intro n h0 hle
    unfold log2_fuel
    by_cases h2 : n < 2
    · rw [if_pos h2]
      have : n = 1 := by omega
      subst this
      simp
    · rw [if_neg h2]
      obtain ⟨h1, h3⟩ := ih (n / 2) (by omega) (by omega)
      have e1 : 2 ^ (log2_fuel fuel (n / 2) + 1) = 2 * 2 ^ log2_fuel fuel (n / 2) := by
        rw [pow_succ]; ring
      have e2 : 2 ^ (log2_fuel fuel (n / 2) + 1 + 1) =
          2 * 2 ^ (log2_fuel fuel (n / 2) + 1) := by
        rw [pow_succ]; ring
      constructor
      · rw [e1]; omega
      · rw [e2]; omega

theorem ilog2_intCast (z : ℤ) (hz : z ≠ 0) :
    ilog2 (z : ℚ) = (log2_fuel z.natAbs z.natAbs : Int) := by
  have hn : z.natAbs ≠ 0 := Int.natAbs_ne_zero.2 hz
  have h1 : log2_fuel 1 1 = 0 := rfl
  have hle := (log2_fuel_spec z.natAbs z.natAbs hn le_rfl).1
  have habs : |(z : ℚ)| = (z.natAbs : ℚ) := by
    rw [← Int.cast_abs, Int.abs_eq_natAbs]
    rfl
  unfold ilog2
  simp only [Rat.num_intCast, Rat.den_intCast, h1, Nat.cast_zero, sub_zero]
  rw [if_pos]
  rw [habs, zpow_natCast]
  exact_mod_cast hle

theorem round_half_even_intCast (m : ℤ) : round_half_even (m : ℚ) = m := by
  unfold round_half_even
  simp

/-- An integer of fewer than `p` bits is a value of the format: rounding
leaves it as it is. -/
theorem round_to_intCast (p : Nat) (emin : Int) (hemin : emin ≤ 0) (z : ℤ)
    (hz : z.natAbs < 2 ^ p) : round_to p emin (z : ℚ) = z := by
  unfold round_to
  by_cases h0 : z = 0
  · subst h0; simp
  · have hq : (z : ℚ) ≠ 0 := by exact_mod_cast h0
    rw [if_neg hq]
    have hn : z.natAbs ≠ 0 := Int.natAbs_ne_zero.2 h0
    obtain ⟨hlo, -⟩ := log2_fuel_spec z.natAbs z.natAbs hn le_rfl
    have hk : log2_fuel z.natAbs z.natAbs < p := by
      have := lt_of_le_of_lt hlo hz
      exact (Nat.pow_lt_pow_iff_right (by norm_num)).1 this
    obtain ⟨j, hj⟩ : ∃ j : Nat, p = log2_fuel z.natAbs z.natAbs + 1 + j :=
      ⟨p - (log2_fuel z.natAbs z.natAbs + 1), by omega⟩
    rw [ilog2_intCast z h0]
    have he : max ((log2_fuel z.natAbs z.natAbs : Nat) : Int) emin - ((p : Int) - 1) =
        -(j : Int) := by
      rw [max_eq_left (le_trans hemin (Int.natCast_nonneg _)), hj]
      push_cast
      ring
    simp only [he]
    have hdiv : (z : ℚ) / (2 : ℚ) ^ (-(j : Int)) = ((z * 2 ^ j : ℤ) : ℚ) := by
      rw [zpow_neg, zpow_natCast, div_inv_eq_mul]
      push_cast
      ring
    rw [hdiv, round_half_even_intCast, zpow_neg, zpow_natCast]
    push_cast
    field_simp

/-- Adding 128 to an integer sample is exact as long as the sum has fewer than
24 bits. -/
theorem plus_128_intCast (z : ℤ) (hz : (z + 128).natAbs < 2 ^ 24) :
    plus_128 (z : ℚ) = (z : ℚ) + 128 := by
  unfold plus_128 to_float to_double
  have e : (z : ℚ) + 128 = ((z + 128 : ℤ) : ℚ) := by push_cast; ring
  rw [e, round_to_intCast 53 (-1022) (by decide) (z + 128)
    (lt_trans hz (by norm_num)), round_to_intCast 24 (-126) (by decide) (z + 128) hz]

theorem add128_succ (fd : List ℚ) (n : Nat) :
    add128 fd (n + 1) = (add128 fd n).set n (plus_128 ((add128 fd n).getD n 0)) := by
  simp [add128, List.range_succ, List.foldl_append]

theorem add128_length (fd : List ℚ) (n : Nat) : (add128 fd n).length = fd.length := by
  induction n with
  | zero => rfl
  | succ n ih => rw [add128_succ, List.length_set, ih]

/-- The loop of lines 192-194 applies `+= 128.` to each of the first `n`
elements, once, and leaves the others alone. -/
theorem add128_getElem? (fd : List ℚ) (n k : Nat) :
    (add128 fd n)[k]? = if k < n then fd[k]?.map plus_128 else fd[k]? := by
  induction n with
  | zero => simp [add128]
  | succ n ih =>
    rw [add128_succ]
    by_cases hk : k = n
    · subst hk
      have ihk : (add128 fd k)[k]? = fd[k]? := by rw [ih]; simp
      by_cases hlen : k < fd.length
      · have hl' : k < (add128 fd k).length := by rw [add128_length]; exact hlen
        rw [List.getElem?_set_self hl']
        simp only [Nat.lt_succ_self, if_true]
        rw [List.getD_eq_getElem?_getD, ihk, List.getElem?_eq_getElem hlen]
        rfl
      · have hl' : ¬ k < (add128 fd k).length := by rw [add128_length]; exact hlen
        rw [List.set_eq_of_length_le (not_lt.1 hl'), ihk]
        simp [List.getElem?_eq_none (not_lt.1 hlen)]
    · rw [List.getElem?_set_ne (Ne.symm hk), ih]
      have : k < n + 1 ↔ k < n := by omega
      simp only [this]

/-! ## The claims -/

/-- C1: the second-order weights `main` hands to the solver. Without `-w`
they are `(0.3, 0, 0)`; when the `-w` argument holds exactly one float `w`
they are `(w, 0, 0)`; when it holds exactly three floats `a,b,c` they are
`(a, b, c)`; when it holds exactly two values, `main` ends with the fatal
error `invalid weight` and never calls `compute`. -/
theorem weights_handed_to_solver (env : Env) (options : List Opt) (argv : List String)
    (fs : FS) :
    (gopt_arg options 'w' = none → (main env options argv fs).status = 0 →
      solver_weights (main env options argv fs).trace = [(0, 3 / 10), (1, 0), (2, 0)]) ∧
    (∀ s w, gopt_arg options 'w' = some s → sscanf_fff s = ⟨1, [w]⟩ →
      (main env options argv fs).status = 0 →
      solver_weights (main env options argv fs).trace = [(0, w), (1, 0), (2, 0)]) ∧
    (∀ s a b c, gopt_arg options 'w' = some s → sscanf_fff s = ⟨3, [a, b, c]⟩ →
      (main env options argv fs).status = 0 →
      solver_weights (main env options argv fs).trace = [(0, a), (1, b), (2, c)]) ∧
    (∀ s, gopt_arg options 'w' = some s → (sscanf_fff s).n = 2 →
      argv.length = 3 → gopt options 'h' = 0 →
      (main env options argv fs).status = EXIT_FAILURE ∧
      (main env options argv fs).trace =
        [Event.sscanf s "%f,%f,%f", Event.die "invalid weight"] ∧
      compute_calls (main env options argv fs).trace = []) := by
  refine ⟨fun hg h => ?_, fun s w hg hs h => ?_, fun s a b c hg hs h => ?_,
    fun s hg hn hlen hh => ?_⟩
  · obtain ⟨weights, pweights, iterations, j, p1, p2, p3, hw, -, -, -, hc⟩ :=
      main_ok_compute_calls h
    rw [(solver_columns_of_calls hc).1]
    rcases weights_block_cont hw with ⟨-, rfl⟩ | ⟨s, hs, -⟩
    · rfl
    · rw [hg] at hs; cases hs
  · obtain ⟨weights, pweights, iterations, j, p1, p2, p3, hw, -, -, -, hc⟩ :=
      main_ok_compute_calls h
    rw [(solver_columns_of_calls hc).1]
    rcases weights_block_cont hw with ⟨hn, -⟩ | ⟨s', hs', -, rfl⟩
    · rw [hg] at hn; cases hn
    · rw [hg] at hs'
      cases hs'
      rw [hs]
      rfl
  · obtain ⟨weights, pweights, iterations, j, p1, p2, p3, hw, -, -, -, hc⟩ :=
      main_ok_compute_calls h
    rw [(solver_columns_of_calls hc).1]
    rcases weights_block_cont hw with ⟨hn, -⟩ | ⟨s', hs', -, rfl⟩
    · rw [hg] at hn; cases hn
    · rw [hg] at hs'
      cases hs'
      rw [hs]
      rfl
  · have hu : usage_block env options argv ⟨[], fs⟩ = Result.cont () ⟨[], fs⟩ := by
      simp [usage_block, hlen, hh]
    have hw : weights_block options ⟨[], fs⟩ =
        Result.exited ⟨[Event.sscanf s "%f,%f,%f", Event.die "invalid weight"], fs⟩ := by
      simp [weights_block, hg, hn, die, Proc.log]
    simp [main, hu, hw, Result.bind, Result.outcome, compute_calls, Event.is_compute]

/-- C1, on sample runs: no `-w`, `-w 0.5`, `-w 0.5,0.2,0.2` and `-w 0.5,0.2`. -/
theorem weights_handed_to_solver_witness :
    solver_weights (main sample_env [] sample_argv sample_fs).trace =
      [(0, 3 / 10), (1, 0), (2, 0)] ∧
    solver_weights (main sample_env [Opt.w "0.5"] sample_argv sample_fs).trace =
      [(0, 1 / 2), (1, 0), (2, 0)] ∧
    solver_weights (main sample_env [Opt.w "0.5,0.2,0.2"] sample_argv sample_fs).trace =
      [(0, 1 / 2), (1, 1 / 5), (2, 1 / 5)] ∧
    ((main sample_env [Opt.w "0.5,0.2"] sample_argv sample_fs).status = EXIT_FAILURE ∧
      (main sample_env [Opt.w "0.5,0.2"] sample_argv sample_fs).trace =
        [Event.sscanf "0.5,0.2" "%f,%f,%f", Event.die "invalid weight"] ∧
      compute_calls (main sample_env [Opt.w "0.5,0.2"] sample_argv sample_fs).trace = []) :=
  ⟨(weights_handed_to_solver sample_env [] sample_argv sample_fs).1 (by decide) (by decide),
    (weights_handed_to_solver sample_env [Opt.w "0.5"] sample_argv sample_fs).2.1 "0.5" (1 / 2)
      (by decide) (by decide!) (by decide),
    (weights_handed_to_solver sample_env [Opt.w "0.5,0.2,0.2"] sample_argv sample_fs).2.2.1
      "0.5,0.2,0.2" (1 / 2) (1 / 5) (1 / 5) (by decide) (by decide!) (by decide),
    (weights_handed_to_solver sample_env [Opt.w "0.5,0.2"] sample_argv sample_fs).2.2.2
      "0.5,0.2" (by decide) (by decide) (by decide) (by decide)⟩

/-- C2: `-p` and `-i` broadcast a single value. Without `-p` the probability
weights are `(0.001, 0.001, 0.001)`; one float `p` gives `(p, p, p)`; three
floats are taken as given. Without `-i` the iteration counts are
`(50, 50, 50)`; one unsigned integer `n` gives `(n, n, n)`; three are taken as
given. -/
theorem pweights_and_iterations_handed_to_solver (env : Env) (options : List Opt)
    (argv : List String) (fs : FS) (h : (main env options argv fs).status = 0) :
    (gopt_arg options 'p' = none →
      solver_pweights (main env options argv fs).trace =
        [(0, 1 / 1000), (1, 1 / 1000), (2, 1 / 1000)]) ∧
    (∀ s p, gopt_arg options 'p' = some s → sscanf_fff s = ⟨1, [p]⟩ →
      solver_pweights (main env options argv fs).trace = [(0, p), (1, p), (2, p)]) ∧
    (∀ s a b c, gopt_arg options 'p' = some s → sscanf_fff s = ⟨3, [a, b, c]⟩ →
      solver_pweights (main env options argv fs).trace = [(0, a), (1, b), (2, c)]) ∧
    (gopt_arg options 'i' = none →
      solver_iterations (main env options argv fs).trace = [(0, 50), (1, 50), (2, 50)]) ∧
    (∀ s n, gopt_arg options 'i' = some s → sscanf_uuu s = ⟨1, [n]⟩ →
      solver_iterations (main env options argv fs).trace = [(0, n), (1, n), (2, n)]) ∧
    (∀ s a b c, gopt_arg options 'i' = some s → sscanf_uuu s = ⟨3, [a, b, c]⟩ →
      solver_iterations (main env options argv fs).trace = [(0, a), (1, b), (2, c)]) := by
  obtain ⟨weights, pweights, iterations, j, p1, p2, p3, -, hp, hi, -, hc⟩ :=
    main_ok_compute_calls h
  obtain ⟨-, hcp, hci⟩ := solver_columns_of_calls hc
  rw [hcp, hci]
  refine ⟨fun hg => ?_, fun s p hg hs => ?_, fun s a b c hg hs => ?_, fun hg => ?_,
    fun s n hg hs => ?_, fun s a b c hg hs => ?_⟩
  · rcases pweights_block_cont hp with ⟨-, rfl⟩ | ⟨s, hs, -⟩
    · rfl
    · rw [hg] at hs; cases hs
  · rcases pweights_block_cont hp with ⟨hn, -⟩ | ⟨s', hs', h3 | h1⟩
    · rw [hg] at hn; cases hn
    · rw [hg] at hs'; cases hs'
      rw [hs] at h3
      exact absurd h3.1 (by simp)
    · rw [hg] at hs'; cases hs'
      rw [hs] at h1
      rw [h1.2]
      rfl
  · rcases pweights_block_cont hp with ⟨hn, -⟩ | ⟨s', hs', h3 | h1⟩
    · rw [hg] at hn; cases hn
    · rw [hg] at hs'; cases hs'
      rw [hs] at h3
      rw [h3.2]
      rfl
    · rw [hg] at hs'; cases hs'
      rw [hs] at h1
      exact absurd h1.1 (by simp)
  · rcases iterations_block_cont hi with ⟨-, rfl⟩ | ⟨s, hs, -⟩
    · rfl
    · rw [hg] at hs; cases hs
  · rcases iterations_block_cont hi with ⟨hn, -⟩ | ⟨s', hs', h3 | h1⟩
    · rw [hg] at hn; cases hn
    · rw [hg] at hs'; cases hs'
      rw [hs] at h3
      exact absurd h3.1 (by simp)
    · rw [hg] at hs'; cases hs'
      rw [hs] at h1
      rw [h1.2]
      rfl
  · rcases iterations_block_cont hi with ⟨hn, -⟩ | ⟨s', hs', h3 | h1⟩
    · rw [hg] at hn; cases hn
    · rw [hg] at hs'; cases hs'
      rw [hs] at h3
      rw [h3.2]
      rfl
    · rw [hg] at hs'; cases hs'
      rw [hs] at h1
      exact absurd h1.1 (by simp)

/-- C2, on sample runs: no options, `-p 0.5 -i 7`, and
`-p 0.5,0.25,0.125 -i 7,8,9`. -/
theorem pweights_and_iterations_handed_to_solver_witness :
    (solver_pweights (main sample_env [] sample_argv sample_fs).trace =
        [(0, 1 / 1000), (1, 1 / 1000), (2, 1 / 1000)] ∧
      solver_iterations (main sample_env [] sample_argv sample_fs).trace =
        [(0, 50), (1, 50), (2, 50)]) ∧
    (solver_pweights (main sample_env [Opt.p "0.5", Opt.i "7"] sample_argv sample_fs).trace =
        [(0, 1 / 2), (1, 1 / 2), (2, 1 / 2)] ∧
      solver_iterations (main sample_env [Opt.p "0.5", Opt.i "7"] sample_argv sample_fs).trace =
        [(0, 7), (1, 7), (2, 7)]) ∧
    (solver_pweights
        (main sample_env [Opt.p "0.5,0.25,0.125", Opt.i "7,8,9"] sample_argv sample_fs).trace =
        [(0, 1 / 2), (1, 1 / 4), (2, 1 / 8)] ∧
      solver_iterations
        (main sample_env [Opt.p "0.5,0.25,0.125", Opt.i "7,8,9"] sample_argv sample_fs).trace =
        [(0, 7), (1, 8), (2, 9)]) :=
  ⟨⟨(pweights_and_iterations_handed_to_solver sample_env [] sample_argv sample_fs
        (by decide)).1 (by decide),
      (pweights_and_iterations_handed_to_solver sample_env [] sample_argv sample_fs
        (by decide)).2.2.2.1 (by decide)⟩,
    ⟨(pweights_and_iterations_handed_to_solver sample_env [Opt.p "0.5", Opt.i "7"] sample_argv
        sample_fs (by decide)).2.1 "0.5" (1 / 2) (by decide) (by decide!),
      (pweights_and_iterations_handed_to_solver sample_env [Opt.p "0.5", Opt.i "7"] sample_argv
        sample_fs (by decide)).2.2.2.2.1 "7" 7 (by decide) (by decide)⟩,
    ⟨(pweights_and_iterations_handed_to_solver sample_env
        [Opt.p "0.5,0.25,0.125", Opt.i "7,8,9"] sample_argv sample_fs (by decide)).2.2.1
        "0.5,0.25,0.125" (1 / 2) (1 / 4) (1 / 8) (by decide) (by decide!),
      (pweights_and_iterations_handed_to_solver sample_env
        [Opt.p "0.5,0.25,0.125", Opt.i "7,8,9"] sample_argv sample_fs (by decide)).2.2.2.2.2
        "7,8,9" 7 8 9 (by decide) (by decide)⟩⟩

/-- C3, as stated, fails: an argument with four comma-separated values is
accepted by `-w`, `-p` and `-i` alike; `sscanf` converts the first three
values and returns 3, and the run goes on to open its files and to solve with
these three values. -/
theorem four_values_are_accepted :
    "1,2,3,4".toList.count ',' = 3 ∧
    (sscanf_fff "1,2,3,4").n = 3 ∧ (sscanf_uuu "1,2,3,4").n = 3 ∧
    (main sample_env [Opt.w "1,2,3,4", Opt.p "1,2,3,4", Opt.i "1,2,3,4"] sample_argv
      sample_fs).status = 0 ∧
    (∀ e ∈ (main sample_env [Opt.w "1,2,3,4", Opt.p "1,2,3,4", Opt.i "1,2,3,4"] sample_argv
        sample_fs).trace, e.is_die = false) ∧
    Event.fopen "out.png" "wb" true ∈
      (main sample_env [Opt.w "1,2,3,4", Opt.p "1,2,3,4", Opt.i "1,2,3,4"] sample_argv
        sample_fs).trace ∧
    solver_iterations
      (main sample_env [Opt.w "1,2,3,4", Opt.p "1,2,3,4", Opt.i "1,2,3,4"] sample_argv
        sample_fs).trace = [(0, 1), (1, 2), (2, 3)] := by
  exact ⟨by decide, by decide, by decide, by decide, by decide, by decide!, by decide⟩

/-- C3, amended: past the usage check, an argument of `-w`, `-p` or `-i` on
which `sscanf` converts neither exactly one nor exactly three values (none, or
two) makes `main` end with a fatal configuration error; nothing was opened
before, and the file system is as it was. -/
theorem bad_count_is_fatal (env : Env) (options : List Opt) (argv : List String) (fs : FS)
    (hlen : argv.length = 3) (hh : gopt options 'h' = 0)
    (hbad :
      (∃ s, gopt_arg options 'w' = some s ∧ (sscanf_fff s).n ≠ 1 ∧ (sscanf_fff s).n ≠ 3) ∨
      (∃ s, gopt_arg options 'p' = some s ∧ (sscanf_fff s).n ≠ 1 ∧ (sscanf_fff s).n ≠ 3) ∨
      (∃ s, gopt_arg options 'i' = some s ∧ (sscanf_uuu s).n ≠ 1 ∧ (sscanf_uuu s).n ≠ 3)) :
    (main env options argv fs).status = EXIT_FAILURE ∧
    (∃ msg, msg ∈ ["invalid weight", "invalid probability weight",
        "invalid number of iterations"] ∧
      (main env options argv fs).trace.getLast? = some (Event.die msg)) ∧
    (∀ e ∈ (main env options argv fs).trace, e.is_fopen = false) ∧
    (main env options argv fs).fs = fs := by
  have hu : usage_block env options argv ⟨[], fs⟩ = Result.cont () ⟨[], fs⟩ := by
    simp [usage_block, hlen, hh]
  have fw := weights_block_frame options ⟨[], fs⟩ (fun e => e.is_fopen = false)
    (fun _ _ => rfl) (fun _ => rfl) (by simp)
  cases hw : weights_block options ⟨[], fs⟩ with
  | exited q =>
    rw [hw] at fw
    obtain ⟨s, -, -, rfl⟩ := weights_block_exit hw
    have hm : main env options argv fs = Result.outcome (Result.exited
        ((Proc.log ⟨[], fs⟩ (Event.sscanf s "%f,%f,%f")).log (Event.die "invalid weight"))) := by
      unfold main
      simp only [hu, hw, Result.bind]
    rw [hm]
    exact ⟨rfl, ⟨_, by simp, getLast_log _ _⟩, fw.2, fw.1⟩
  | cont weights p1 =>
    rw [hw] at fw
    have fp := pweights_block_frame options p1 (fun e => e.is_fopen = false)
      (fun _ _ => rfl) (fun _ => rfl) fw.2
    cases hp : pweights_block options p1 with
    | exited q =>
      rw [hp] at fp
      obtain ⟨s, -, -, rfl⟩ := pweights_block_exit hp
      have hm : main env options argv fs = Result.outcome (Result.exited
          ((p1.log (Event.sscanf s "%f,%f,%f")).log (Event.die "invalid probability weight"))) := by
        unfold main
        simp only [hu, hw, hp, Result.bind]
      rw [hm]
      exact ⟨rfl, ⟨_, by simp, getLast_log _ _⟩, fp.2, fp.1.trans fw.1⟩
    | cont pweights p2 =>
      rw [hp] at fp
      have fi := iterations_block_frame options p2 (fun e => e.is_fopen = false)
        (fun _ _ => rfl) (fun _ => rfl) fp.2
      cases hi : iterations_block options p2 with
      | exited q =>
        rw [hi] at fi
        obtain ⟨s, -, -, rfl⟩ := iterations_block_exit hi
        have hm : main env options argv fs = Result.outcome (Result.exited
            ((p2.log (Event.sscanf s "%u,%u,%u")).log
              (Event.die "invalid number of iterations"))) := by
          unfold main
          simp only [hu, hw, hp, hi, Result.bind]
        rw [hm]
        exact ⟨rfl, ⟨_, by simp, getLast_log _ _⟩, fi.2, fi.1.trans (fp.1.trans fw.1)⟩
      | cont iterations p3 =>
        exfalso
        rcases hbad with ⟨s, hs, h1, h3⟩ | ⟨s, hs, h1, h3⟩ | ⟨s, hs, h1, h3⟩
        · rcases weights_block_cont hw with ⟨hn, -⟩ | ⟨s', hs', h | h, -⟩
          · rw [hs] at hn; cases hn
          · rw [hs] at hs'; cases hs'; exact h3 h
          · rw [hs] at hs'; cases hs'; exact h1 h
        · rcases pweights_block_cont hp with ⟨hn, -⟩ | ⟨s', hs', h | h⟩
          · rw [hs] at hn; cases hn
          · rw [hs] at hs'; cases hs'; exact h3 h.1
          · rw [hs] at hs'; cases hs'; exact h1 h.1
        · rcases iterations_block_cont hi with ⟨hn, -⟩ | ⟨s', hs', h | h⟩
          · rw [hs] at hn; cases hn
          · rw [hs] at hs'; cases hs'; exact h3 h.1
          · rw [hs] at hs'; cases hs'; exact h1 h.1

/-- C3, amended, on a sample run: `-p 0.5,0.2` has two values. -/
theorem bad_count_is_fatal_witness :
    (main sample_env [Opt.w "0.5", Opt.p "0.5,0.2"] sample_argv sample_fs).status =
      EXIT_FAILURE ∧
    (∃ msg, msg ∈ ["invalid weight", "invalid probability weight",
        "invalid number of iterations"] ∧
      (main sample_env [Opt.w "0.5", Opt.p "0.5,0.2"] sample_argv sample_fs).trace.getLast? =
        some (Event.die msg)) ∧
    (∀ e ∈ (main sample_env [Opt.w "0.5", Opt.p "0.5,0.2"] sample_argv sample_fs).trace,
      e.is_fopen = false) ∧
    (main sample_env [Opt.w "0.5", Opt.p "0.5,0.2"] sample_argv sample_fs).fs = sample_fs :=
  bad_count_is_fatal sample_env [Opt.w "0.5", Opt.p "0.5,0.2"] sample_argv sample_fs
    (by decide) (by decide) (Or.inr (Or.inl ⟨"0.5,0.2", by decide, by decide, by decide⟩))

theorem gopt_h_of_mem {options : List Opt} (h : Opt.h ∈ options) : gopt options 'h' ≠ 0 := by
  unfold gopt
  intro h0
  have hnil := List.length_eq_zero.1 h0
  rw [List.filter_eq_nil_iff] at hnil
  exact hnil Opt.h h (by simp [Opt.key])

/-- C5: when the arguments left by option sorting are not the program name
and exactly two positionals, or when a help option (`-h`, `-?`, `--help`, all
sorted under key `h`) was given, `main` prints the usage text and exits with
`EXIT_FAILURE`; it does nothing else, so no option value is parsed and no file
is opened, whatever the other options are. -/
theorem usage_and_failure (env : Env) (options : List Opt) (argv : List String) (fs : FS)
    (h : argv.length ≠ 3 ∨ Opt.h ∈ options) :
    (main env options argv fs).trace =
      [Event.printf_usage (usage_text env.USE_OPENMP), Event.exit EXIT_FAILURE] ∧
    (main env options argv fs).status = EXIT_FAILURE ∧
    (main env options argv fs).fs = fs ∧
    (∀ e ∈ (main env options argv fs).trace, e.is_sscanf = false ∧ e.is_fopen = false) := by
  have hc : argv.length ≠ 3 ∨ gopt options 'h' ≠ 0 := h.imp id gopt_h_of_mem
  have hu : usage_block env options argv ⟨[], fs⟩ =
      Result.exited ⟨[Event.printf_usage (usage_text env.USE_OPENMP),
        Event.exit EXIT_FAILURE], fs⟩ := by
    unfold usage_block
    rw [if_pos hc]
    rfl
  have hm : main env options argv fs =
      ⟨[Event.printf_usage (usage_text env.USE_OPENMP), Event.exit EXIT_FAILURE], fs,
        EXIT_FAILURE⟩ := by
    unfold main
    rw [hu]
    rfl
  rw [hm]
  refine ⟨rfl, rfl, rfl, ?_⟩
  intro e he
  simp only [List.mem_cons, List.mem_singleton, List.not_mem_nil, or_false] at he
  rcases he with rfl | rfl <;> exact ⟨rfl, rfl⟩

/-- C5, on sample runs: one positional argument only; and `-h` together with
two positionals and valid `-w`, `-c` options. -/
theorem usage_and_failure_witness :
    (main sample_env [] ["jpeg2png", "in.jpg"] sample_fs).status = EXIT_FAILURE ∧
    (main sample_env [Opt.w "0.5", Opt.h, Opt.c "log.csv"] sample_argv sample_fs).trace =
      [Event.printf_usage (usage_text false), Event.exit EXIT_FAILURE] ∧
    (main sample_env [Opt.w "0.5", Opt.h, Opt.c "log.csv"] sample_argv sample_fs).status =
      EXIT_FAILURE :=
  ⟨(usage_and_failure sample_env [] ["jpeg2png", "in.jpg"] sample_fs
      (Or.inl (by decide))).2.1,
    (usage_and_failure sample_env [Opt.w "0.5", Opt.h, Opt.c "log.csv"] sample_argv sample_fs
      (Or.inr (by decide))).1,
    (usage_and_failure sample_env [Opt.w "0.5", Opt.h, Opt.c "log.csv"] sample_argv sample_fs
      (Or.inr (by decide))).2.1⟩

/-- C6: evaluation at the failing inputs. When the input or the output cannot
be opened, `die_perror` is given the path; when the csv log cannot be opened,
it is given the null stream `csv_log` in place of the `-c` argument. -/
theorem csv_open_failure_reports_null_stream :
    (main sample_env [] ["jpeg2png", "missing.jpg", "out.png"] sample_fs).trace.getLast? =
      some (Event.die_perror "could not open input file `%s`" (PrintfArg.str "missing.jpg")) ∧
    (main sample_env [] ["jpeg2png", "in.jpg", "/nonexistent/log.csv"] sample_fs).trace.getLast? =
      some (Event.die_perror "could not open output file `%s`"
        (PrintfArg.str "/nonexistent/log.csv")) ∧
    (main sample_env [Opt.c "/nonexistent/log.csv"] sample_argv sample_fs).trace =
      [Event.fopen "in.jpg" "rb" true, Event.fopen "out.png" "wb" true,
        Event.fopen "/nonexistent/log.csv" "wb" false,
        Event.die_perror "could not open csv log `%s`" (PrintfArg.file none)] ∧
    (main sample_env [Opt.c "/nonexistent/log.csv"] sample_argv sample_fs).trace.getLast? ≠
      some (Event.die_perror "could not open csv log `%s`"
        (PrintfArg.str "/nonexistent/log.csv")) := by
  exact ⟨by decide, by decide, by decide, by decide⟩

/-- C7, as stated, fails: on an input that `read_jpeg` rejects, `main` has
already opened the output for writing; the run ends fatally, `write_png` was
never called, and the old contents of the output file are gone: an empty
file is left. The same happens when the csv log cannot be opened. -/
theorem fatal_run_leaves_empty_output :
    sample_fs.file "out.png" = some [1, 2, 3] ∧
    (main sample_env [] ["jpeg2png", "bad.jpg", "out.png"] sample_fs).status = EXIT_FAILURE ∧
    Event.fopen "out.png" "wb" true ∈
      (main sample_env [] ["jpeg2png", "bad.jpg", "out.png"] sample_fs).trace ∧
    write_png_calls (main sample_env [] ["jpeg2png", "bad.jpg", "out.png"] sample_fs).trace = [] ∧
    (main sample_env [] ["jpeg2png", "bad.jpg", "out.png"] sample_fs).fs.file "out.png" =
      some [] ∧
    (main sample_env [Opt.c "/nonexistent/log.csv"] sample_argv sample_fs).status =
      EXIT_FAILURE ∧
    (main sample_env [Opt.c "/nonexistent/log.csv"] sample_argv sample_fs).fs.file "out.png" =
      some [] := by
  exact ⟨by decide, by decide, by decide, by decide, by decide, by decide, by decide⟩

/-- Where a fatal run of `main` stops: before the output was opened, with the
file system untouched, or after it, with an empty output file and a trace of
start-up calls only. -/
theorem main_exit {env : Env} {options : List Opt} {argv : List String} {fs : FS}
    (h : (main env options argv fs).status ≠ 0) :
    ((main env options argv fs).fs = fs ∧
      ∀ e ∈ (main env options argv fs).trace, e ≠ Event.fopen (argv_at argv 2) "wb" true) ∨
    ((main env options argv fs).fs.file (argv_at argv 2) = some [] ∧
      Event.fopen (argv_at argv 2) "wb" true ∈ (main env options argv fs).trace ∧
      ∀ e ∈ (main env options argv fs).trace, e.setup = true) := by
  have key : ∀ r : Result Unit, main env options argv fs = r.outcome →
      ((r.proc.fs = fs ∧ ∀ e ∈ r.proc.trace, e ≠ Event.fopen (argv_at argv 2) "wb" true) ∨
        (r.proc.fs.file (argv_at argv 2) = some [] ∧
          Event.fopen (argv_at argv 2) "wb" true ∈ r.proc.trace ∧
          ∀ e ∈ r.proc.trace, e.setup = true)) →
      ((main env options argv fs).fs = fs ∧
        ∀ e ∈ (main env options argv fs).trace, e ≠ Event.fopen (argv_at argv 2) "wb" true) ∨
      ((main env options argv fs).fs.file (argv_at argv 2) = some [] ∧
        Event.fopen (argv_at argv 2) "wb" true ∈ (main env options argv fs).trace ∧
        ∀ e ∈ (main env options argv fs).trace, e.setup = true) := by
    intro r hr hc
    rw [hr]
    cases r <;> exact hc
  cases h0 : usage_block env options argv ⟨[], fs⟩ with
  | exited q =>
    refine key (Result.exited q) (by unfold main; simp only [h0, Result.bind]) (Or.inl ?_)
    unfold usage_block at h0
    split_ifs at h0
    simp only [usage] at h0
    injection h0 with h0
    subst h0
    exact ⟨rfl, forall_mem_log (forall_mem_log (by simp) (by simp)) (by simp)⟩
  | cont u p0 =>
    obtain ⟨e0, -, -⟩ := usage_block_cont h0
    subst e0
    have fw := weights_block_frame options ⟨[], fs⟩
      (fun e => e ≠ Event.fopen (argv_at argv 2) "wb" true)
      (fun _ _ => by simp) (fun _ => by simp) (by simp)
    have gw := weights_block_frame options ⟨[], fs⟩ (fun e => e.setup = true)
      (fun _ _ => rfl) (fun _ => rfl) (by simp)
    cases hw : weights_block options ⟨[], fs⟩ with
    | exited q =>
      rw [hw] at fw
      exact key (Result.exited q) (by unfold main; simp only [h0, hw, Result.bind])
        (Or.inl ⟨fw.1, fw.2⟩)
    | cont weights p1 =>
      rw [hw] at fw gw
      have fp := pweights_block_frame options p1 (fun e => e ≠ Event.fopen (argv_at argv 2) "wb" true)
        (fun _ _ => by simp) (fun _ => by simp) fw.2
      have gp := pweights_block_frame options p1 (fun e => e.setup = true)
        (fun _ _ => rfl) (fun _ => rfl) gw.2
      cases hp : pweights_block options p1 with
      | exited q =>
        rw [hp] at fp
        exact key (Result.exited q) (by unfold main; simp only [h0, hw, hp, Result.bind])
          (Or.inl ⟨fp.1.trans fw.1, fp.2⟩)
      | cont pweights p2 =>
        rw [hp] at fp gp
        have fi := iterations_block_frame options p2 (fun e => e ≠ Event.fopen (argv_at argv 2) "wb" true)
          (fun _ _ => by simp) (fun _ => by simp)
          fp.2
        have gi := iterations_block_frame options p2 (fun e => e.setup = true)
          (fun _ _ => rfl) (fun _ => rfl) gp.2
        cases hi : iterations_block options p2 with
        | exited q =>
          rw [hi] at fi
          exact key (Result.exited q)
            (by unfold main; simp only [h0, hw, hp, hi, Result.bind])
            (Or.inl ⟨fi.1.trans (fp.1.trans fw.1), fi.2⟩)
        | cont iterations p3 =>
          rw [hi] at fi gi
          have ft := threads_block_frame env options p3
            (fun e => e ≠ Event.fopen (argv_at argv 2) "wb" true)
            (fun _ _ => by simp) (by simp) (by simp) (fun _ => by simp) fi.2
          have gt := threads_block_frame env options p3 (fun e => e.setup = true)
            (fun _ _ => rfl) rfl rfl (fun _ => rfl) gi.2
          have hfs3 : p3.fs = fs := fi.1.trans (fp.1.trans fw.1)
          cases ht : threads_block env options p3 with
          | exited q =>
            rw [ht] at ft
            exact key (Result.exited q)
              (by unfold main; simp only [h0, hw, hp, hi, ht, Result.bind])
              (Or.inl ⟨ft.1.trans hfs3, ft.2⟩)
          | cont u4 p4 =>
            rw [ht] at ft gt
            cases ho : open_block options argv p4 with
            | exited q =>
              refine key (Result.exited q)
                (by unfold main; simp only [h0, hw, hp, hi, ht, ho, Result.bind]) ?_
              rcases open_block_exit ho with ⟨e1, e2⟩ | ⟨e1, e2, e3⟩
              · exact Or.inl ⟨e1.trans (ft.1.trans hfs3), e2 ft.2⟩
              · exact Or.inr ⟨e1, e2, e3 gt.2⟩
            | cont csv p5 =>
              obtain ⟨-, hfile, hmem, hs5⟩ := open_block_cont ho
              have g5 : ∀ e ∈ p5.trace, e.setup = true :=
                hs5 (fun e => e.setup = true) plain_setup gt.2
              have fr := read_block_frame env argv (p5.log Event.gopt_free)
              cases hr : read_block env argv (p5.log Event.gopt_free) with
              | exited q =>
                rw [hr] at fr
                refine key (Result.exited q)
                  (by unfold main; simp only [h0, hw, hp, hi, ht, ho, hr, Result.bind])
                  (Or.inr ⟨?_, fr.2.1 _ (mem_log.2 (Or.inl hmem)),
                    fr.2.2 _ plain_setup (fun _ => rfl) (forall_mem_log g5 (by rfl))⟩)
                show q.fs.file (argv_at argv 2) = some []
                rw [show q.fs = (p5.log Event.gopt_free).fs from fr.1]
                exact hfile
              | cont j p6 =>
                rw [hr] at fr
                have fd := for3_frame (decode_body env) (decode_body_frame env) j p6
                have h6 : p6.fs.file (argv_at argv 2) = some [] := by
                  rw [show p6.fs = (p5.log Event.gopt_free).fs from fr.1]
                  exact hfile
                have m6 : Event.fopen (argv_at argv 2) "wb" true ∈ p6.trace :=
                  fr.2.1 _ (mem_log.2 (Or.inl hmem))
                have g6 : ∀ e ∈ p6.trace, e.setup = true :=
                  fr.2.2 _ plain_setup (fun _ => rfl) (forall_mem_log g5 (by rfl))
                cases hd : for3 (decode_body env) j p6 with
                | exited q =>
                  rw [hd] at fd
                  refine key (Result.exited q)
                    (by unfold main; simp only [h0, hw, hp, hi, ht, ho, hr, hd, Result.bind])
                    (Or.inr ⟨?_, fd.2.1 _ m6, fd.2.2 _ plain_setup g6⟩)
                  show q.fs.file (argv_at argv 2) = some []
                  rw [show q.fs = p6.fs from fd.1]
                  exact h6
                | cont j1 p7 =>
                  rw [hd] at fd
                  have fu := for3_frame (unbox_body env) (unbox_body_frame env) j1 p7
                  cases hu : for3 (unbox_body env) j1 p7 with
                  | exited q =>
                    rw [hu] at fu
                    refine key (Result.exited q)
                      (by unfold main
                          simp only [h0, hw, hp, hi, ht, ho, hr, hd, hu, Result.bind])
                      (Or.inr ⟨?_, fu.2.1 _ (fd.2.1 _ m6),
                        fu.2.2 _ plain_setup (fd.2.2 _ plain_setup g6)⟩)
                    show q.fs.file (argv_at argv 2) = some []
                    rw [show q.fs = p7.fs from fu.1, show p7.fs = p6.fs from fd.1]
                    exact h6
                  | cont j2 p8 =>
                    exfalso
                    apply h
                    unfold main
                    simp only [h0, hw, hp, hi, ht, ho, hr, hd, hu, Result.bind, solve_block_eq,
                      output_block_eq, Result.outcome]

/-- C7, amended: a run of `main` that ends in a fatal error before the output
was opened leaves the file system as it was; a run that ends in a fatal error
after `fopen(argv[2], "wb")` succeeded leaves the output file created or
truncated and empty, `write_png` not having been called. -/
theorem fatal_run_output_untouched_or_empty (env : Env) (options : List Opt)
    (argv : List String) (fs : FS) (h : (main env options argv fs).status = EXIT_FAILURE) :
    (Event.fopen (argv_at argv 2) "wb" true ∉ (main env options argv fs).trace ∧
      (main env options argv fs).fs = fs) ∨
    (Event.fopen (argv_at argv 2) "wb" true ∈ (main env options argv fs).trace ∧
      (main env options argv fs).fs.file (argv_at argv 2) = some [] ∧
      write_png_calls (main env options argv fs).trace = []) := by
  have h' : (main env options argv fs).status ≠ 0 := by
    rw [h]; decide
  rcases main_exit h' with ⟨h1, h2⟩ | ⟨h1, h2, h3⟩
  · exact Or.inl ⟨fun hm => h2 _ hm rfl, h1⟩
  · exact Or.inr ⟨h2, h1, setup_filter_nil _ setup_not_write_png h3⟩

/-- C7, amended, on sample runs: a missing input, and an undecodable one. -/
theorem fatal_run_output_untouched_or_empty_witness :
    ((Event.fopen "out.png" "wb" true ∉
          (main sample_env [] ["jpeg2png", "missing.jpg", "out.png"] sample_fs).trace ∧
        (main sample_env [] ["jpeg2png", "missing.jpg", "out.png"] sample_fs).fs = sample_fs) ∨
      (Event.fopen "out.png" "wb" true ∈
          (main sample_env [] ["jpeg2png", "missing.jpg", "out.png"] sample_fs).trace ∧
        (main sample_env [] ["jpeg2png", "missing.jpg", "out.png"] sample_fs).fs.file "out.png" =
          some [] ∧
        write_png_calls
          (main sample_env [] ["jpeg2png", "missing.jpg", "out.png"] sample_fs).trace = [])) ∧
    ((Event.fopen "out.png" "wb" true ∉
          (main sample_env [] ["jpeg2png", "bad.jpg", "out.png"] sample_fs).trace ∧
        (main sample_env [] ["jpeg2png", "bad.jpg", "out.png"] sample_fs).fs = sample_fs) ∨
      (Event.fopen "out.png" "wb" true ∈
          (main sample_env [] ["jpeg2png", "bad.jpg", "out.png"] sample_fs).trace ∧
        (main sample_env [] ["jpeg2png", "bad.jpg", "out.png"] sample_fs).fs.file "out.png" =
          some [] ∧
        write_png_calls
          (main sample_env [] ["jpeg2png", "bad.jpg", "out.png"] sample_fs).trace = [])) :=
  ⟨fatal_run_output_untouched_or_empty sample_env [] ["jpeg2png", "missing.jpg", "out.png"]
      sample_fs (by decide),
    fatal_run_output_untouched_or_empty sample_env [] ["jpeg2png", "bad.jpg", "out.png"]
      sample_fs (by decide)⟩

theorem upsample_targets_filter (t : List Event) :
    upsample_targets t = upsample_targets (upsample_calls t) := by
  unfold upsample_targets upsample_calls
  induction t with
  | nil => rfl
  | cons e t ih => cases e <;> simp_all [List.filter_cons, List.filterMap_cons, Event.is_upsample]

theorem write_png_sizes_filter (t : List Event) :
    write_png_sizes t = write_png_sizes (write_png_calls t) := by
  unfold write_png_sizes write_png_calls
  induction t with
  | nil => rfl
  | cons e t ih =>
    cases e <;> simp_all [List.filter_cons, List.filterMap_cons, Event.is_write_png]

/-- C8: the output has the declared size of the JPEG. In a run of `main` that
returns, `read_jpeg` returned an image, and for the image `jpeg` it returned
each of the three planes is upsampled with target `(jpeg.w, jpeg.h)` and
`write_png` is called once, with `(jpeg.w, jpeg.h)`; the sizes `coef->w`,
`coef->h` of the planes play no part. -/
theorem output_size_is_declared_size (env : Env) (options : List Opt) (argv : List String)
    (fs : FS) (h : (main env options argv fs).status = 0) :
    (∃ j, Event.read_jpeg (argv_at argv 1) (some j) ∈ (main env options argv fs).trace) ∧
    ∀ j, Event.read_jpeg (argv_at argv 1) (some j) ∈ (main env options argv fs).trace →
      upsample_targets (main env options argv fs).trace =
        [(0, j.w, j.h), (1, j.w, j.h), (2, j.w, j.h)] ∧
      write_png_sizes (main env options argv fs).trace = [(j.w, j.h)] := by
  obtain ⟨j, c0, c1, c2, hj, huniq, -, hu, hw, -⟩ := main_ok_calls h
  refine ⟨⟨j, hj⟩, fun j' hj' => ?_⟩
  rw [huniq j' hj', upsample_targets_filter, write_png_sizes_filter, hu, hw]
  exact ⟨rfl, rfl⟩

/-- C8, on a sample run: the image is declared 7 by 5, its planes are 2 by 1. -/
theorem output_size_is_declared_size_witness :
    sample_jpeg.coefs.a0.w = 2 ∧ sample_jpeg.coefs.a0.h = 1 ∧
    upsample_targets (main sample_env [] sample_argv sample_fs).trace =
      [(0, 7, 5), (1, 7, 5), (2, 7, 5)] ∧
    write_png_sizes (main sample_env [] sample_argv sample_fs).trace = [(7, 5)] :=
  ⟨rfl, rfl,
    (output_size_is_declared_size sample_env [] sample_argv sample_fs (by decide)).2 sample_jpeg
      (by decide!)⟩

theorem gopt_q_iff (options : List Opt) : gopt options 'q' ≠ 0 ↔ Opt.q ∈ options := by
  unfold gopt
  rw [Ne, List.length_eq_zero, List.filter_eq_nil_iff]
  constructor
  · intro hne
    by_contra hq
    apply hne
    intro o ho
    cases o <;> simp_all [Opt.key]
  · intro hq hall
    exact hall Opt.q hq (by simp [Opt.key])

/-- C9: each channel is solved exactly once, with its own configuration. In a
run of `main` that returns, with `weights`, `pweights` and `iterations` the
arrays the three option blocks produced and `jpeg` the image `read_jpeg`
returned, the `compute` calls are exactly three, for `i = 0, 1, 2` in turn:
on plane `jpeg.coefs[i]` as decoded and unboxed, with the logger's channel
set to `i`, with `quant_table[i]`, `weights[i]`, `pweights[i]` and
`iterations[i]`; the progress sink is `NULL` exactly when `-q` was given. -/
theorem each_channel_solved_once (env : Env) (options : List Opt) (argv : List String)
    (fs : FS) (h : (main env options argv fs).status = 0) :
    ∃ (weights pweights : Arr3 ℚ) (iterations : Arr3 Nat) (p1 p2 p3 : Proc),
      weights_block options ⟨[], fs⟩ = Result.cont weights p1 ∧
      pweights_block options p1 = Result.cont pweights p2 ∧
      iterations_block options p2 = Result.cont iterations p3 ∧
      ∀ j, Event.read_jpeg (argv_at argv 1) (some j) ∈ (main env options argv fs).trace →
        compute_calls (main env options argv fs).trace =
          [Event.compute 0 (prepared env j 0) ⟨gopt_arg options 'c', 0⟩
              (if Opt.q ∈ options then none
                else some ⟨(iterations.get 0 + iterations.get 1 + iterations.get 2) % 2 ^ 32⟩)
              (j.quant_table.get 0) (weights.get 0) (pweights.get 0) (iterations.get 0),
            Event.compute 1 (prepared env j 1) ⟨gopt_arg options 'c', 1⟩
              (if Opt.q ∈ options then none
                else some ⟨(iterations.get 0 + iterations.get 1 + iterations.get 2) % 2 ^ 32⟩)
              (j.quant_table.get 1) (weights.get 1) (pweights.get 1) (iterations.get 1),
            Event.compute 2 (prepared env j 2) ⟨gopt_arg options 'c', 2⟩
              (if Opt.q ∈ options then none
                else some ⟨(iterations.get 0 + iterations.get 1 + iterations.get 2) % 2 ^ 32⟩)
              (j.quant_table.get 2) (weights.get 2) (pweights.get 2) (iterations.get 2)] := by
  obtain ⟨weights, pweights, iterations, j, p1, p2, p3, hw, hp, hi, hj, hc⟩ :=
    main_ok_compute_calls h
  obtain ⟨j0, -, -, -, -, huniq, -⟩ := main_ok_calls h
  refine ⟨weights, pweights, iterations, p1, p2, p3, hw, hp, hi, fun j' hj' => ?_⟩
  rw [huniq j' hj', ← huniq j hj, hc]
  simp only [gopt_q_iff, Arr3.get_zero, Arr3.get_one, Arr3.get_two]

/-- C9, on a sample run with `-q -w 0.5 -i 7,8,9 -c log.csv`: the general
statement at this input, and the three calls it describes. -/
theorem each_channel_solved_once_witness :
    (∃ (weights pweights : Arr3 ℚ) (iterations : Arr3 Nat) (p1 p2 p3 : Proc),
      weights_block [Opt.q, Opt.w "0.5", Opt.i "7,8,9", Opt.c "log.csv"] ⟨[], sample_fs⟩ =
        Result.cont weights p1 ∧
      pweights_block [Opt.q, Opt.w "0.5", Opt.i "7,8,9", Opt.c "log.csv"] p1 =
        Result.cont pweights p2 ∧
      iterations_block [Opt.q, Opt.w "0.5", Opt.i "7,8,9", Opt.c "log.csv"] p2 =
        Result.cont iterations p3 ∧
      ∀ j, Event.read_jpeg (argv_at sample_argv 1) (some j) ∈
          (main sample_env [Opt.q, Opt.w "0.5", Opt.i "7,8,9", Opt.c "log.csv"] sample_argv
            sample_fs).trace →
        compute_calls
            (main sample_env [Opt.q, Opt.w "0.5", Opt.i "7,8,9", Opt.c "log.csv"] sample_argv
              sample_fs).trace =
          [Event.compute 0 (prepared sample_env j 0) ⟨some "log.csv", 0⟩
              (if Opt.q ∈ [Opt.q, Opt.w "0.5", Opt.i "7,8,9", Opt.c "log.csv"] then none
                else some ⟨(iterations.get 0 + iterations.get 1 + iterations.get 2) % 2 ^ 32⟩)
              (j.quant_table.get 0) (weights.get 0) (pweights.get 0) (iterations.get 0),
            Event.compute 1 (prepared sample_env j 1) ⟨some "log.csv", 1⟩
              (if Opt.q ∈ [Opt.q, Opt.w "0.5", Opt.i "7,8,9", Opt.c "log.csv"] then none
                else some ⟨(iterations.get 0 + iterations.get 1 + iterations.get 2) % 2 ^ 32⟩)
              (j.quant_table.get 1) (weights.get 1) (pweights.get 1) (iterations.get 1),
            Event.compute 2 (prepared sample_env j 2) ⟨some "log.csv", 2⟩
              (if Opt.q ∈ [Opt.q, Opt.w "0.5", Opt.i "7,8,9", Opt.c "log.csv"] then none
                else some ⟨(iterations.get 0 + iterations.get 1 + iterations.get 2) % 2 ^ 32⟩)
              (j.quant_table.get 2) (weights.get 2) (pweights.get 2) (iterations.get 2)]) ∧
    compute_calls
      (main sample_env [Opt.q, Opt.w "0.5", Opt.i "7,8,9", Opt.c "log.csv"] sample_argv
        sample_fs).trace =
      [Event.compute 0 sample_coef ⟨some "log.csv", 0⟩ none [1] (1 / 2) (1 / 1000) 7,
        Event.compute 1 sample_coef ⟨some "log.csv", 1⟩ none [2] 0 (1 / 1000) 8,
        Event.compute 2 sample_coef ⟨some "log.csv", 2⟩ none [3] 0 (1 / 1000) 9] ∧
    compute_calls (main sample_env [] sample_argv sample_fs).trace =
      [Event.compute 0 sample_coef ⟨none, 0⟩ (some ⟨150⟩) [1] (3 / 10) (1 / 1000) 50,
        Event.compute 1 sample_coef ⟨none, 1⟩ (some ⟨150⟩) [2] 0 (1 / 1000) 50,
        Event.compute 2 sample_coef ⟨none, 2⟩ (some ⟨150⟩) [3] 0 (1 / 1000) 50] :=
  ⟨each_channel_solved_once sample_env [Opt.q, Opt.w "0.5", Opt.i "7,8,9", Opt.c "log.csv"]
      sample_argv sample_fs (by decide),
    by decide!, by decide!⟩

/-- C10, as stated, fails: the luma samples are not increased by exactly 128.
Line 193 is a `float` assignment, so each sum is rounded to binary32: in the
sample run the luma sample `0.1f` left by `compute` reaches `upsample` as
`128.100006103515625`, which is not `0.1f + 128`. -/
theorem luma_offset_rounds :
    sample_coef.fdata = [13421773 / 134217728, 2] ∧
    (main sample_env [] sample_argv sample_fs).trace.filterMap (compute_result sample_env) =
      [sample_coef, sample_coef, sample_coef] ∧
    upsample_calls (main sample_env [] sample_argv sample_fs).trace =
      [Event.upsample 0 ⟨1, 2, [], [4197581 / 32768, 130]⟩ 7 5,
        Event.upsample 1 sample_coef 7 5, Event.upsample 2 sample_coef 7 5] ∧
    (4197581 / 32768 : ℚ) ≠ 13421773 / 134217728 + 128 := by
  exact ⟨rfl, by decide!, by decide!, by decide!⟩

/-- C10, amended: the offset is an elementwise step on the luma plane only. In
a run of `main` that returns, all `compute` calls come before all `upsample`
calls; with `c0, c1, c2` the planes the three `compute` calls leave behind,
the plane handed to `upsample` for channel 0 is `c0` with `fdata` changed in
its first `c0.h * c0.w` elements (the `unsigned` product), each replaced once
by the `float` result of `+= 128.`, nothing else being changed; the planes
handed to `upsample` for channels 1 and 2 are `c1` and `c2` themselves. The
`float` result is the sum rounded to binary32; it is exactly `x + 128` for
every integer sample whose sum has fewer than 24 bits. -/
theorem luma_offset_is_elementwise (env : Env) (options : List Opt) (argv : List String)
    (fs : FS) (hret : (main env options argv fs).status = 0) :
    (∃ (c0 c1 c2 : coef) (w h : Nat) (fdata : List ℚ),
      (main env options argv fs).trace.filterMap (compute_result env) = [c0, c1, c2] ∧
      upsample_calls (main env options argv fs).trace =
        [Event.upsample 0 { c0 with fdata := fdata } w h, Event.upsample 1 c1 w h,
          Event.upsample 2 c2 w h] ∧
      fdata.length = c0.fdata.length ∧
      (∀ k, fdata[k]? =
        if k < (c0.h * c0.w) % 2 ^ 32 then c0.fdata[k]?.map plus_128 else c0.fdata[k]?) ∧
      ∃ a b, (main env options argv fs).trace = a ++ b ∧ upsample_calls a = [] ∧
        compute_calls b = []) ∧
    (∀ z : ℤ, (z + 128).natAbs < 2 ^ 24 → plus_128 (z : ℚ) = (z : ℚ) + 128) := by
  obtain ⟨j, c0, c1, c2, -, -, hc, hu, -, hord⟩ := main_ok_calls hret
  exact ⟨⟨c0, c1, c2, j.w, j.h, add128 c0.fdata ((c0.h * c0.w) % 2 ^ 32), hc, hu,
    add128_length _ _, add128_getElem? _ _, hord⟩, plus_128_intCast⟩

/-- C10, amended, on a sample run: the general statement at this input, and
the planes that reach `upsample`, the luma plane `[0.1f, 2]` having become
`[128.100006103515625, 130]`. -/
theorem luma_offset_is_elementwise_witness :
    ((∃ (c0 c1 c2 : coef) (w h : Nat) (fdata : List ℚ),
      (main sample_env [] sample_argv sample_fs).trace.filterMap (compute_result sample_env) =
        [c0, c1, c2] ∧
      upsample_calls (main sample_env [] sample_argv sample_fs).trace =
        [Event.upsample 0 { c0 with fdata := fdata } w h, Event.upsample 1 c1 w h,
          Event.upsample 2 c2 w h] ∧
      fdata.length = c0.fdata.length ∧
      (∀ k, fdata[k]? =
        if k < (c0.h * c0.w) % 2 ^ 32 then c0.fdata[k]?.map plus_128 else c0.fdata[k]?) ∧
      ∃ a b, (main sample_env [] sample_argv sample_fs).trace = a ++ b ∧
        upsample_calls a = [] ∧ compute_calls b = []) ∧
      (∀ z : ℤ, (z + 128).natAbs < 2 ^ 24 → plus_128 (z : ℚ) = (z : ℚ) + 128)) ∧
    upsample_calls (main sample_env [] sample_argv sample_fs).trace =
      [Event.upsample 0 ⟨1, 2, [], [plus_128 (13421773 / 134217728), plus_128 2]⟩ 7 5,
        Event.upsample 1 ⟨1, 2, [], [13421773 / 134217728, 2]⟩ 7 5,
        Event.upsample 2 ⟨1, 2, [], [13421773 / 134217728, 2]⟩ 7 5] ∧
    plus_128 (13421773 / 134217728) = 4197581 / 32768 ∧ plus_128 2 = 130 :=
  ⟨luma_offset_is_elementwise sample_env [] sample_argv sample_fs (by decide),
    by decide!, by decide!, by decide!⟩

end Jpeg2png
